import Mathlib

/-!
# ShareMap configuration form: client-side script

A shallow embedding of `static/script.js` and the properties of its functions.

* The page is the list of its elements in document order; the nesting of the
  elements is kept in `Element.depth`.  An element is named by its index, and
  every update of the script keeps the list length, the ids and the depths.
* Each function of the script is a function on pages.  A function that can
  throw returns an `Outcome`: the page it leaves and the message thrown.  An
  index outside the page names no element; a function given one leaves the
  page as it is (`validateNumeric` then returns false).
* The built-ins the script calls are written out after their ECMAScript and
  DOM definitions: `parseFloat`, `isNaN`, `Math.abs`, the comparisons,
  `Number.prototype.toString` and `toExponential` on binary64 values;
  `getElementById`, `querySelectorAll`, `querySelector`, `classList` and the
  entry list of `FormData` on the page.
* A `select` carries the list of its options, each with its value and whether
  it is selected; its value is read from and written through that list.
* The container of the flash banners is either an element of the page with the
  class `flash-messages` or the one `createFlashContainer` has inserted, kept
  as `Page.flashContainer`; the banners shown are kept in `Page.flashes`.
* What awaits outside the script is an argument: the answer to `confirm`, what
  the two `fetch` exchanges yield, and `sanitize`, the value setter of an
  element other than a `select` (the string the element holds after an
  assignment to `value`, or the exception the setter throws).

Outside the model: file inputs in `FormData`, defaults other than booleans,
numbers and strings, the text of the body `JSON.stringify` produces, the
console, the viewport beyond the element last scrolled to, and the five-second
timer of a flash banner.
-/

namespace ShareMap

/-! ## JavaScript numbers -/

/-- JavaScript Number values (IEEE-754 binary64).  A finite value is
`mant * 2 ^ exp`, negated when `neg`; both zeros have `mant = 0`.  Values built
by `roundQuot` are in canonical form: `2^52 ≤ mant < 2^53`, or `mant < 2^52`
with `exp = -1074`, or `mant = 0` with `exp = 0`. -/
inductive JSNum where
  | nan
  | inf (neg : Bool)
  | fin (neg : Bool) (mant : Nat) (exp : Int)
  deriving DecidableEq, Repr

namespace JSNum

/-- Floor of the binary logarithm, `fuel` bounding the number of halvings. -/
def log2Floor : Nat → Nat → Nat
  | 0, _ => 0
  | fuel + 1, n => if n < 2 then 0 else log2Floor fuel (n / 2) + 1

/-- The Number value for the positive rational `n / d` (`0 < d`): rounding to
the nearest binary64, ties to even, overflowing to infinity. -/
def roundQuot (neg : Bool) (n d : Nat) : JSNum :=
  if n = 0 then .fin neg 0 0 else
  let e0 : Int := (log2Floor n n : Int) - (log2Floor d d : Int)
  let ge : Bool := if 0 ≤ e0 then d * 2 ^ e0.toNat ≤ n else d ≤ n * 2 ^ (-e0).toNat
  let e : Int := if ge then e0 else e0 - 1
  let q : Int := max (e - 52) (-1074)
  let n1 := if 0 ≤ q then n else n * 2 ^ (-q).toNat
  let d1 := if 0 ≤ q then d * 2 ^ q.toNat else d
  let m := n1 / d1
  let r := n1 % d1
  let m1 := if d1 < 2 * r ∨ (2 * r = d1 ∧ m % 2 = 1) then m + 1 else m
  let m2 := if m1 = 2 ^ 53 then 2 ^ 52 else m1
  let q2 := if m1 = 2 ^ 53 then q + 1 else q
  if m2 = 0 then .fin neg 0 0
  else if 971 < q2 then .inf neg
  else .fin neg m2 q2

/-- The Number value for the decimal `m * 10 ^ e`. -/
def ofDecimal (neg : Bool) (m : Nat) (e : Int) : JSNum :=
  if 0 ≤ e then roundQuot neg (m * 10 ^ e.toNat) 1 else roundQuot neg m (10 ^ (-e).toNat)

/-- The Number value of a natural-number literal. -/
def ofNat (n : Nat) : JSNum := ofDecimal false n 0

/-- The global `isNaN` on a Number. -/
def isNaN : JSNum → Bool
  | .nan => true
  | _ => false

/-- The global `isFinite` on a Number. -/
def isFinite : JSNum → Bool
  | .fin _ _ _ => true
  | _ => false

/-- The function `Math.abs`. -/
def abs : JSNum → JSNum
  | .nan => .nan
  | .inf _ => .inf false
  | .fin _ m e => .fin false m e

/-- The signed integer `± m * 2 ^ (e - q)`, used to compare finite values on a
common exponent `q ≤ e`. -/
def scaled (neg : Bool) (m : Nat) (e q : Int) : Int :=
  if neg then -((m * 2 ^ (e - q).toNat : Nat) : Int) else ((m * 2 ^ (e - q).toNat : Nat) : Int)

/-- The operator `<` on Numbers: false as soon as one side is NaN. -/
def lt : JSNum → JSNum → Bool
  | .nan, _ => false
  | _, .nan => false
  | .inf a, .inf b => a && !b
  | .inf a, .fin _ _ _ => a
  | .fin _ _ _, .inf b => !b
  | .fin s1 m1 e1, .fin s2 m2 e2 =>
    decide (scaled s1 m1 e1 (min e1 e2) < scaled s2 m2 e2 (min e1 e2))

/-- The operator `>` on Numbers. -/
def gt (a b : JSNum) : Bool := lt b a

/-- The operator `>=` on Numbers: `a < b` or `a == b` with the sides swapped,
false as soon as one side is NaN. -/
def ge : JSNum → JSNum → Bool
  | .nan, _ => false
  | _, .nan => false
  | a, b => !lt a b

/-- The operator `===` on Numbers (`+0 === -0`, `NaN` equal to nothing). -/
def strictEq : JSNum → JSNum → Bool
  | .inf a, .inf b => a == b
  | .fin s1 m1 e1, .fin s2 m2 e2 =>
    decide (scaled s1 m1 e1 (min e1 e2) = scaled s2 m2 e2 (min e1 e2))
  | _, _ => false

end JSNum

/-! ## `parseFloat` -/

/-- The code points `parseFloat` trims from the start of its argument
(ECMAScript WhiteSpace and LineTerminator). -/
def isWhiteSpace (c : Char) : Bool :=
  let n := c.toNat
  n = 9 || n = 10 || n = 11 || n = 12 || n = 13 || n = 32 || n = 160 || n = 0x1680
    || (0x2000 ≤ n && n ≤ 0x200A) || n = 0x2028 || n = 0x2029 || n = 0x202F
    || n = 0x205F || n = 0x3000 || n = 0xFEFF

/-- The natural number written by a list of decimal digits. -/
def digitsValue (ds : List Char) : Nat :=
  ds.foldl (fun acc c => acc * 10 + (c.toNat - 48)) 0

/-- The value of an ExponentPart at the head of the input, `0` when the input
does not start with a complete one (`e` or `E`, an optional sign, digits). -/
def parseExponentPart : List Char → Int
  | [] => 0
  | c :: rest =>
    if c = 'e' ∨ c = 'E' then
      match rest with
      | '+' :: r => digitsValue (r.takeWhile Char.isDigit)
      | '-' :: r => -(digitsValue (r.takeWhile Char.isDigit) : Int)
      | r => digitsValue (r.takeWhile Char.isDigit)
    else 0

/-- The longest prefix that is a StrUnsignedDecimalLiteral, turned into its
Number value; NaN when there is none. -/
def parseUnsignedDecimal (neg : Bool) (cs : List Char) : JSNum :=
  if "Infinity".toList.isPrefixOf cs then .inf neg else
  let ip := cs.takeWhile Char.isDigit
  match cs.dropWhile Char.isDigit with
  | '.' :: r2 =>
    let fp := r2.takeWhile Char.isDigit
    if ip = [] ∧ fp = [] then .nan
    else JSNum.ofDecimal neg (digitsValue (ip ++ fp))
      (parseExponentPart (r2.dropWhile Char.isDigit) - fp.length)
  | r1 => if ip = [] then .nan else JSNum.ofDecimal neg (digitsValue ip) (parseExponentPart r1)

/-- The global `parseFloat` applied to a string. -/
def parseFloat (s : String) : JSNum :=
  match s.toList.dropWhile isWhiteSpace with
  | '+' :: r => parseUnsignedDecimal false r
  | '-' :: r => parseUnsignedDecimal true r
  | r => parseUnsignedDecimal false r

/-! ## Number to string -/

/-- Number of decimal digits of a natural number. -/
def numDigits (n : Nat) : Nat := (Nat.toDigits 10 n).length

/-- The least `j` from the start value on with `d ≤ n * 10 ^ j`. -/
def findNegExp : Nat → Nat → Nat → Nat → Nat
  | 0, _, _, j => j
  | fuel + 1, n, d, j => if d ≤ n * 10 ^ j then j else findNegExp fuel n d (j + 1)

/-- The decimal exponent `⌊log10 (n / d)⌋` of a positive rational. -/
def decExponent (n d : Nat) : Int :=
  if d ≤ n then (numDigits (n / d) : Int) - 1
  else -(findNegExp (numDigits d + 1) n d 1 : Int)

/-- Quotient, remainder and divisor of `(n / d) / 10 ^ p` as an integer
division. -/
def scaleDiv (n d : Nat) (p : Int) : Nat × Nat × Nat :=
  let n1 := if 0 ≤ p then n else n * 10 ^ (-p).toNat
  let d1 := if 0 ≤ p then d * 10 ^ p.toNat else d
  (n1 / d1, n1 % d1, d1)

/-- Drop the trailing zeros of `s`, keeping `s * 10 ^ p`. -/
def stripZeros : Nat → Nat → Int → Nat × Int
  | 0, s, p => (s, p)
  | fuel + 1, s, p => if s ≠ 0 ∧ s % 10 = 0 then stripZeros fuel (s / 10) (p + 1) else (s, p)

/-- Search, from `k` significant digits upward, for the nearest `k`-digit
decimal that reads back as `x`. -/
def shortestAux (x : JSNum) (n d : Nat) (e10 : Int) : Nat → Nat → Nat × Int
  | 0, k =>
    let p := e10 + 1 - k
    let (lo, r, d1) := scaleDiv n d p
    (if d1 ≤ 2 * r then lo + 1 else lo, p)
  | fuel + 1, k =>
    let p := e10 + 1 - k
    let (lo, r, d1) := scaleDiv n d p
    let okLo := decide (JSNum.ofDecimal false lo p = x)
    let okHi := decide (JSNum.ofDecimal false (lo + 1) p = x)
    if okLo && okHi then
      (if 2 * r < d1 ∨ (2 * r = d1 ∧ lo % 2 = 0) then lo else lo + 1, p)
    else if okLo then (lo, p)
    else if okHi then (lo + 1, p)
    else shortestAux x n d e10 fuel (k + 1)

/-- Digits `s` and exponent `p` of the shortest decimal `s * 10 ^ p` whose
Number value is `m * 2 ^ q` (step 5 of Number::toString). -/
def shortestDecimal (m : Nat) (q : Int) : Nat × Int :=
  let n := if 0 ≤ q then m * 2 ^ q.toNat else m
  let d := if 0 ≤ q then 1 else 2 ^ (-q).toNat
  let (s, p) := shortestAux (.fin false m q) n d (decExponent n d) 17 1
  stripZeros (numDigits s) s p

/-- A run of `n` zero digits. -/
def zeros (n : Nat) : String := String.mk (List.replicate n '0')

/-- Number::toString in radix 10 for a positive finite value. -/
def positiveToString (m : Nat) (q : Int) : String :=
  let (s, p) := shortestDecimal m q
  let ds := Nat.toDigits 10 s
  let k := ds.length
  let n : Int := k + p
  if (k : Int) ≤ n ∧ n ≤ 21 then String.mk ds ++ zeros (n - k).toNat
  else if 0 < n ∧ n ≤ 21 then String.mk (ds.take n.toNat) ++ "." ++ String.mk (ds.drop n.toNat)
  else if -6 < n ∧ n ≤ 0 then "0." ++ zeros (-n).toNat ++ String.mk ds
  else
    let e := n - 1
    let es := (if e < 0 then "-" else "+") ++ String.mk (Nat.toDigits 10 e.natAbs)
    if k = 1 then String.mk ds ++ "e" ++ es
    else String.mk (ds.take 1) ++ "." ++ String.mk (ds.drop 1) ++ "e" ++ es

/-- The method `Number.prototype.toString()`, also the string conversion of a
Number in a template literal. -/
def JSNum.toString : JSNum → String
  | .nan => "NaN"
  | .inf neg => if neg then "-Infinity" else "Infinity"
  | .fin neg m q =>
    if m = 0 then "0"
    else if neg then "-" ++ positiveToString m q else positiveToString m q

/-- Mantissa and exponent text of `toExponential(f)` for a positive finite
value; a tie between two mantissas goes to the larger. -/
def positiveToExponential (m : Nat) (q : Int) (f : Nat) : String :=
  let n := if 0 ≤ q then m * 2 ^ q.toNat else m
  let d := if 0 ≤ q then 1 else 2 ^ (-q).toNat
  let e10 := decExponent n d
  let (lo, r, d1) := scaleDiv n d (e10 - f)
  let c := if d1 ≤ 2 * r then lo + 1 else lo
  let c1 := if c = 10 ^ (f + 1) then 10 ^ f else c
  let e := if c = 10 ^ (f + 1) then e10 + 1 else e10
  let ds := Nat.toDigits 10 c1
  let ms := if f = 0 then String.mk ds else String.mk (ds.take 1) ++ "." ++ String.mk (ds.drop 1)
  ms ++ "e" ++ (if e < 0 then "-" else "+") ++ String.mk (Nat.toDigits 10 e.natAbs)

/-- The method `Number.prototype.toExponential(f)` for `0 ≤ f ≤ 100`. -/
def JSNum.toExponential (x : JSNum) (f : Nat) : String :=
  match x with
  | .nan => "NaN"
  | .inf neg => if neg then "-Infinity" else "Infinity"
  | .fin neg m q =>
    if m = 0 then (if f = 0 then "0" else "0." ++ zeros f) ++ "e+0"
    else if neg then "-" ++ positiveToExponential m q f else positiveToExponential m q f

/-! ## Values and the page -/

/-- The values a configuration or defaults object holds. -/
inductive JSVal where
  | bool (b : Bool)
  | num (x : JSNum)
  | str (s : String)
  deriving DecidableEq, Repr

namespace JSVal

/-- The abstract operation ToString, applied when a value is stored in an
input or passed to `parseFloat`. -/
def toJSString : JSVal → String
  | .bool b => if b then "true" else "false"
  | .num x => x.toString
  | .str s => s

/-- The conversion `Boolean(value)`: false on `false`, both zeros, NaN and the
empty string. -/
def truthy : JSVal → Bool
  | .bool b => b
  | .num (.fin _ m _) => decide (m ≠ 0)
  | .num .nan => false
  | .num (.inf _) => true
  | .str s => decide (s ≠ "")

end JSVal

/-- One element of the document.  `tag` is the lower-case local name, `id` and
`name` are empty when the attribute is absent, `type` is the `type` property,
`dataMin`, `dataMax`, `dataMutex` are `dataset.min`, `dataset.max`,
`dataset.mutex` (`none` for `undefined`), `options` lists the options of a
`select` (the value of each, and whether it is selected), `disabled` tells whether the control
is actually disabled, `display` is `style.display`, and `depth` is the nesting
depth below the document body. -/
structure Element where
  tag : String
  id : String
  name : String
  type : String
  classList : List String
  checked : Bool
  value : String
  options : List (String × Bool)
  disabled : Bool
  dataMin : Option String
  dataMax : Option String
  dataMutex : Option String
  textContent : String
  innerHTML : String
  display : String
  depth : Nat
  deriving DecidableEq, Repr

/-- A flash banner appended by `showFlash`. -/
structure Flash where
  type : String
  message : String
  deriving DecidableEq, Repr

/-- The page: its elements in document order (a pre-order walk, the tree shape
given by `Element.depth`), whether `createFlashContainer` has added its
container (kept apart from the listed elements), the banners shown so far, and
the element last scrolled into view. -/
structure Page where
  elements : List Element
  flashContainer : Bool
  flashes : List Flash
  scrolledTo : Option Nat
  deriving DecidableEq, Repr

/-- The page a function of the script leaves, and the message of the exception
it threw, if any. -/
structure Outcome where
  page : Page
  thrown : Option String
  deriving DecidableEq, Repr

/-- The method `classList.add`. -/
def classAdd (c : String) (cl : List String) : List String :=
  if c ∈ cl then cl else cl ++ [c]

/-- The method `classList.remove`, with any number of class names. -/
def classRemove (cs : List String) (cl : List String) : List String :=
  cl.filter (fun c => decide (c ∉ cs))

/-- The method `classList.toggle(c, force)`. -/
def classToggle (c : String) (force : Bool) (cl : List String) : List String :=
  if force then classAdd c cl else classRemove [c] cl

namespace Page

/-- Apply a property update to the element at index `i`. -/
def modify (p : Page) (i : Nat) (f : Element → Element) : Page :=
  { p with elements := p.elements.modify f i }

/-- The element at index `i`. -/
def get? (p : Page) (i : Nat) : Option Element := p.elements[i]?

end Page

/-- Index of the first element satisfying `q`, in document order. -/
def findIndex (q : Element → Bool) : List Element → Option Nat
  | [] => none
  | e :: es => if q e then some 0 else (findIndex q es).map (· + 1)

/-- The method `document.getElementById`: the first element in document order
carrying the id; an empty id names no element. -/
def getElementById (p : Page) (id : String) : Option Nat :=
  if id = "" then none else findIndex (fun e => e.id == id) p.elements

/-- The method `document.querySelectorAll` as a static list of indices, for a
selector that looks at one element only. -/
def querySelectorAll (p : Page) (sel : Element → Bool) : List Nat :=
  (List.range p.elements.length).filter
    (fun i => match p.elements[i]? with
      | some e => sel e
      | none => false)

/-- Indices of the descendants of element `j`, from the depths of the elements
in document order: the run of deeper elements that follows it. -/
def descendants (depths : List Nat) (j : Nat) : List Nat :=
  match depths[j]? with
  | none => []
  | some d => List.range' (j + 1) ((depths.drop (j + 1)).takeWhile (fun x => decide (d < x))).length

/-- The property `parentElement`, from the depths of the elements in document
order: the nearest earlier element of smaller depth; `none` stands for the
document body, which the page does not list. -/
def parentElement (depths : List Nat) (c : Nat) : Option Nat :=
  match depths[c]? with
  | none => none
  | some d =>
    (List.range c).reverse.find?
      (fun j => match depths[j]? with
        | some x => decide (x < d)
        | none => false)

/-- The call `el.parentElement.querySelector(sel)`: first match among the
descendants of the parent of `c`. -/
def parentQuerySelector (els : List Element) (c : Nat) (sel : Element → Bool) : Option Nat :=
  let scope := match parentElement (els.map Element.depth) c with
    | some j => descendants (els.map Element.depth) j
    | none => List.range els.length
  scope.find? (fun i => match els[i]? with
    | some e => sel e
    | none => false)

/-- Whether element `i` lies below an element of class `cls`. -/
def hasAncestorOfClass (els : List Element) (cls : String) (i : Nat) : Bool :=
  (List.range i).any (fun j => match els[j]? with
    | some a => decide (cls ∈ a.classList) && (descendants (els.map Element.depth) j).contains i
    | none => false)

/-- The selector `.form-group input, .form-group select`. -/
def formGroupControls (p : Page) : List Nat :=
  (List.range p.elements.length).filter
    (fun i => match p.elements[i]? with
      | some e => (e.tag == "input" || e.tag == "select") &&
          hasAncestorOfClass p.elements "form-group" i
      | none => false)

/-- The entries one control contributes to `new FormData(form)`: nothing when
it is disabled, unnamed or a button; a checkbox or radio button only when
checked; a `select` one entry for each selected option, none when no option is
selected; otherwise its name with its current value.  `disabled` holds for a
control disabled by its own attribute or through a `fieldset`.  File inputs
are outside the model. -/
def formEntry (e : Element) : List (String × String) :=
  if e.disabled ∨ e.name = "" then []
  else if e.tag = "input" then
    if e.type = "checkbox" ∨ e.type = "radio" then
      (if e.checked then [(e.name, e.value)] else [])
    else if e.type ∈ ["submit", "button", "reset", "image", "file"] then []
    else [(e.name, e.value)]
  else if e.tag = "select" then
    (e.options.filter (fun o => o.2)).map (fun o => (e.name, o.1))
  else if e.tag = "textarea" then [(e.name, e.value)]
  else []

/-- The calls `document.getElementById("configForm")` and
`new FormData(form).entries()`: the entries of the controls below the form in
document order; `none` when the constructor throws because there is no such
form element. -/
def formDataEntries (p : Page) : Option (List (String × String)) :=
  match getElementById p "configForm" with
  | none => none
  | some f =>
    match p.elements[f]? with
    | none => none
    | some fe =>
      if fe.tag = "form" then
        some ((descendants (p.elements.map Element.depth) f).flatMap (fun i => match p.elements[i]? with
          | some e => formEntry e
          | none => []))
      else none

/-- Message of the TypeError for `insertBefore` on a missing `.container`
element (text as in V8). -/
def nullInsertBeforeMessage : String :=
  "Cannot read properties of null (reading \x27insertBefore\x27)"

/-- Message of the NotFoundError of `insertBefore` when the reference node is
not a child of the node (text as in Blink). -/
def notAChildMessage : String :=
  "Failed to execute \x27insertBefore\x27 on \x27Node\x27: The node before which the new node " ++
    "is to be inserted is not a child of this node."

/-- The function `createFlashContainer`: inserts the container into the first
`.container` element, before the first `form` of the document.  It throws when
there is no `.container`, and when there is a form that is not a child of it. -/
def createFlashContainer (p : Page) : Outcome :=
  match findIndex (fun e => decide ("container" ∈ e.classList)) p.elements with
  | none => ⟨p, some nullInsertBeforeMessage⟩
  | some holder =>
    match findIndex (fun e => e.tag == "form") p.elements with
    | none => ⟨{ p with flashContainer := true }, none⟩
    | some form =>
      if parentElement (p.elements.map Element.depth) form = some holder then
        ⟨{ p with flashContainer := true }, none⟩
      else ⟨p, some notAChildMessage⟩

/-- Whether `document.querySelector(".flash-messages")` finds an element: a
listed one, or the container `createFlashContainer` has added. -/
def hasFlashContainer (p : Page) : Bool :=
  p.flashContainer || p.elements.any (fun e => decide ("flash-messages" ∈ e.classList))

/-- The function `showFlash`: appends a banner to the flash container, which
`createFlashContainer` creates on first use.  The five-second removal timer is
not part of the model. -/
def showFlash (p : Page) (type message : String) : Outcome :=
  if hasFlashContainer p then
    ⟨{ p with flashes := p.flashes ++ [⟨type, message⟩] }, none⟩
  else
    match (createFlashContainer p).thrown with
    | none =>
      ⟨{ (createFlashContainer p).page with
          flashes := (createFlashContainer p).page.flashes ++ [⟨type, message⟩] }, none⟩
    | some m => ⟨(createFlashContainer p).page, some m⟩

/-! ## The script -/

/-- The function `updateToggleLabel`: writes `Enabled` or `Disabled` into the
first `.toggle-label` below the parent of the checkbox, when there is one. -/
def updateToggleLabel (p : Page) (checkbox : Nat) : Page :=
  match p.elements[checkbox]? with
  | none => p
  | some cb =>
    match parentQuerySelector p.elements checkbox
        (fun e => decide ("toggle-label" ∈ e.classList)) with
    | some label =>
      p.modify label (fun e => { e with textContent := if cb.checked then "Enabled" else "Disabled" })
    | none => p

/-- The function `handleMutex`. -/
def handleMutex (p : Page) (checkbox : Nat) : Page :=
  match p.elements[checkbox]? with
  | none => p
  | some cb =>
    match cb.dataMutex with
    | none => p
    | some mutexField =>
      if mutexField = "" then p
      else
        match getElementById p mutexField with
        | none => p
        | some mutexCheckbox =>
          let p1 :=
            if cb.checked then
              updateToggleLabel (p.modify mutexCheckbox (fun e => { e with checked := false }))
                mutexCheckbox
            else p
          updateToggleLabel p1 checkbox

/-- The checks of `validateNumeric` on one input: the value of `isValid` and of
`errorMsg` when the function reaches its class updates. -/
def numericCheck (input : Element) : Bool × String :=
  let value := parseFloat input.value
  let min := input.dataMin.map parseFloat
  let max := input.dataMax.map parseFloat
  if value.isNaN then (false, "Please enter a valid number")
  else
    match min.filter (fun lo => value.lt lo) with
    | some lo => (false, "Value must be at least " ++ lo.toString)
    | none =>
      match max.filter (fun hi => value.gt hi) with
      | some hi => (false, "Value must be at most " ++ hi.toString)
      | none => (true, "")

/-- The function `validateNumeric`: the page it leaves and the boolean it
returns. -/
def validateNumeric (p : Page) (input : Nat) : Page × Bool :=
  match p.elements[input]? with
  | none => (p, false)
  | some el =>
    let errorEl := getElementById p ("error-" ++ el.id)
    let isValid := (numericCheck el).1
    let errorMsg := (numericCheck el).2
    let p1 := p.modify input (fun e =>
      { e with classList := classToggle "valid" isValid (classToggle "error" (!isValid) e.classList) })
    match errorEl with
    | some j =>
      (p1.modify j (fun e =>
        { e with textContent := errorMsg,
                 classList := classToggle "visible" (!isValid) e.classList }), isValid)
    | none => (p1, isValid)

/-- The configuration object: its own properties, in the order of their
creation. -/
abbrev Config := List (String × JSVal)

namespace Config

/-- The call `Object.prototype.hasOwnProperty` on a configuration object. -/
def hasOwn (cfg : Config) (k : String) : Bool := cfg.any (fun kv => kv.1 == k)

/-- The value of the own property `k`. -/
def get? (cfg : Config) (k : String) : Option JSVal :=
  (cfg.find? (fun kv => kv.1 == k)).map (fun kv => kv.2)

/-- The assignment `config[k] = v` of a boolean, number or string.  The key
`__proto__` reaches the prototype setter, which ignores such values, and
creates no property. -/
def set (cfg : Config) (k : String) (v : JSVal) : Config :=
  if k = "__proto__" then cfg
  else if cfg.hasOwn k then cfg.map (fun kv => if kv.1 = k then (k, v) else kv)
  else cfg ++ [(k, v)]

end Config

/-- The body of the first loop of `validateAll` for one form entry. -/
def configEntryStep (p : Page) (config : Config) (entry : String × String) : Config :=
  if entry.1 = "udp_host" ∨ entry.1 = "udp_port" then config
  else
    match (getElementById p entry.1).bind p.get? with
    | some input =>
      if input.type = "checkbox" then config.set entry.1 (.bool input.checked)
      else
        let numVal := parseFloat entry.2
        config.set entry.1 (if numVal.isNaN then .str entry.2 else .num numVal)
    | none =>
      let numVal := parseFloat entry.2
      config.set entry.1 (if numVal.isNaN then .str entry.2 else .num numVal)

/-- Message of the TypeError raised by `config.hasOwnProperty(...)` when a form
field named `hasOwnProperty` has shadowed the method (text as in V8). -/
def notAFunctionMessage : String := "config.hasOwnProperty is not a function"

/-- The body of the second loop of `validateAll` for one checkbox; an
exception ends the loop. -/
def uncheckedStep (config : Except String Config) (cb : Element) : Except String Config :=
  match config with
  | .error m => .error m
  | .ok cfg =>
    if cb.name ≠ "udp_host" ∧ cb.name ≠ "udp_port" then
      if cfg.hasOwn "hasOwnProperty" then .error notAFunctionMessage
      else if !cfg.hasOwn cb.name then .ok (cfg.set cb.name (.bool false))
      else .ok cfg
    else .ok cfg

/-- The elements selected by `input[type="checkbox"]`, in document order. -/
def checkboxes (p : Page) : List Element :=
  p.elements.filter (fun e => e.tag == "input" && e.type == "checkbox")

/-- The configuration object `validateAll` builds from the form entries and
the checkboxes of the document. -/
def buildConfig (p : Page) (entries : List (String × String)) : Except String Config :=
  (checkboxes p).foldl uncheckedStep (.ok (entries.foldl (configEntryStep p) []))

/-- A validation result as the validation endpoint returns it; `errors` in
the order of `Object.entries`. -/
structure ValidationResult where
  valid : Bool
  errors : List (String × List String)
  deriving DecidableEq, Repr

/-- What awaiting `fetch` and `response.json()` yields: the parsed body, or
the message of the error that rejected one of the two promises. -/
inductive FetchResult (α : Type) where
  | response (body : α)
  | failure (message : String)

/-- Message of the TypeError for `summary.style` on a missing element (text as
in V8). -/
def nullStyleMessage : String := "Cannot read properties of null (reading \x27style\x27)"

/-- Message of the TypeError for `content.innerHTML = ...` on a missing element
(text as in V8). -/
def nullInnerHTMLMessage : String := "Cannot set properties of null (setting \x27innerHTML\x27)"

/-- Message of the TypeError of `new FormData(null)` (text as in V8). -/
def formDataMessage : String :=
  "Failed to construct \x27FormData\x27: parameter 1 is not of type \x27HTMLFormElement\x27."

/-- The markup shown when the result is valid. -/
def successHtml : String :=
  "<p style=\"color: #166534;\">✓ All fields are valid! Configuration is ready to send.</p>"

/-- The body of the loop of `displayValidationResults` over
`Object.entries(result.errors)`: the page and the markup accumulated so far. -/
def errorStep (acc : Page × String) (fe : String × List String) : Page × String :=
  if fe.1 = "_mutex" then
    (acc.1, fe.2.foldl
      (fun html err => html ++ ("<li style=\"color: #991b1b;\">⚠ " ++ err ++ "</li>")) acc.2)
  else if fe.1 = "_general" then
    (acc.1, fe.2.foldl
      (fun html err => html ++ ("<li style=\"color: #991b1b;\">⚠ " ++ err ++ "</li>")) acc.2)
  else
    let p1 := match getElementById acc.1 fe.1 with
      | some input => acc.1.modify input (fun e => { e with classList := classAdd "error" e.classList })
      | none => acc.1
    (p1, fe.2.foldl
      (fun html err =>
        html ++ ("<li style=\"color: #991b1b;\"><strong>" ++ fe.1 ++ ":</strong> " ++ err ++ "</li>"))
      acc.2)

/-- The function `displayValidationResults`. -/
def displayValidationResults (p : Page) (result : ValidationResult) : Outcome :=
  match getElementById p "validation-summary" with
  | none => ⟨p, some nullStyleMessage⟩
  | some summary =>
    let content := getElementById p "validation-content"
    let p1 := p.modify summary (fun e =>
      { e with display := "block",
               classList := classAdd (if result.valid then "success" else "error")
                 (classRemove ["success", "error"] e.classList) })
    let p2 := (formGroupControls p1).foldl
      (fun q i => q.modify i (fun e => { e with classList := classRemove ["error", "valid"] e.classList }))
      p1
    if result.valid then
      match content with
      | none => ⟨p2, some nullInnerHTMLMessage⟩
      | some c =>
        ⟨{ p2.modify c (fun e => { e with innerHTML := successHtml }) with scrolledTo := some summary },
          none⟩
    else
      let r := result.errors.foldl errorStep (p2, "<ul>")
      match content with
      | none => ⟨r.1, some nullInnerHTMLMessage⟩
      | some c =>
        ⟨{ r.1.modify c (fun e => { e with innerHTML := r.2 ++ "</ul>" }) with scrolledTo := some summary },
          none⟩

/-- The result `validateAll` renders in its `catch` block. -/
def generalFailure (message : String) : ValidationResult :=
  { valid := false, errors := [("_general", ["Failed to validate: " ++ message])] }

/-- The `try` / `catch` statement of `validateAll`, given what the exchange
with `/api/validate` yields: an exception thrown while rendering the response
is caught like a transport failure. -/
def renderExchange (p : Page) (exchange : FetchResult ValidationResult) : Outcome :=
  match exchange with
  | .response result =>
    match (displayValidationResults p result).thrown with
    | none => displayValidationResults p result
    | some m => displayValidationResults (displayValidationResults p result).page (generalFailure m)
  | .failure m => displayValidationResults p (generalFailure m)

/-- The function `validateAll`; `fetch` stands for the exchange with
`/api/validate`, given the configuration object posted. -/
def validateAll (p : Page) (fetch : Config → FetchResult ValidationResult) : Outcome :=
  match formDataEntries p with
  | none => ⟨p, some formDataMessage⟩
  | some entries =>
    match buildConfig p entries with
    | .error m => ⟨p, some m⟩
    | .ok config => renderExchange p (fetch config)

/-- The setter `select.value = s`: every option is deselected, then the first
option whose value is `s`, if any, is selected. -/
def selectByValue : List (String × Bool) → String → List (String × Bool)
  | [], _ => []
  | o :: os, s =>
    if o.1 = s then (o.1, true) :: os.map (fun x => (x.1, false))
    else (o.1, false) :: selectByValue os s

/-- The getter `select.value`: the value of the first selected option, the
empty string when no option is selected. -/
def selectedValue (os : List (String × Bool)) : String :=
  match os.find? (fun o => o.2) with
  | some o => o.1
  | none => ""

/-- The statements of the loop of `resetToDefaults` that apply a default to an
element.  `sanitize input s` stands for the value setter of an element other
than a `select`: the string the element holds after `input.value = s` (its
value sanitization), or the message of the exception the setter throws. -/
def assignDefault (sanitize : Element → String → Except String String)
    (p : Page) (i : Nat) (input : Element) (value : JSVal) : Except String Page :=
  if input.type = "checkbox" then
    .ok (updateToggleLabel (p.modify i (fun e => { e with checked := value.truthy })) i)
  else if input.tag = "select" then
    .ok (p.modify i (fun e =>
      { e with options := selectByValue e.options value.toJSString,
               value := selectedValue (selectByValue e.options value.toJSString) }))
  else
    match sanitize input value.toJSString with
    | .ok stored => .ok (p.modify i (fun e => { e with value := stored }))
    | .error m => .error m

/-- The statements of the loop of `resetToDefaults` under the comment
`Clear validation state`. -/
def clearValidation (p : Page) (i : Nat) (field : String) : Page :=
  match getElementById
      (p.modify i (fun e => { e with classList := classRemove ["error", "valid"] e.classList }))
      ("error-" ++ field) with
  | some errorEl =>
    (p.modify i (fun e =>
      { e with classList := classRemove ["error", "valid"] e.classList })).modify errorEl
      (fun e => { e with classList := classRemove ["visible"] e.classList })
  | none => p.modify i (fun e => { e with classList := classRemove ["error", "valid"] e.classList })

/-- The body of the loop of `resetToDefaults` for one entry of
`Object.entries(defaults)`. -/
def resetStep (sanitize : Element → String → Except String String)
    (p : Page) (fv : String × JSVal) : Outcome :=
  match getElementById p fv.1 with
  | none => ⟨p, none⟩
  | some i =>
    match p.elements[i]? with
    | none => ⟨p, none⟩
    | some input =>
      match assignDefault sanitize p i input fv.2 with
      | .ok p1 => ⟨clearValidation p1 i fv.1, none⟩
      | .error m => ⟨p, some m⟩

/-- The loop of `resetToDefaults`; an exception ends it. -/
def resetLoop (sanitize : Element → String → Except String String) :
    List (String × JSVal) → Page → Outcome
  | [], p => ⟨p, none⟩
  | fv :: rest, p =>
    match (resetStep sanitize p fv).thrown with
    | none => resetLoop sanitize rest (resetStep sanitize p fv).page
    | some m => ⟨(resetStep sanitize p fv).page, some m⟩

/-- The `try` block of `resetToDefaults` once the defaults are fetched: the
loop, hiding the summary panel, the success banner. -/
def resetBody (sanitize : Element → String → Except String String)
    (p : Page) (defaults : List (String × JSVal)) : Outcome :=
  match (resetLoop sanitize defaults p).thrown with
  | some m => ⟨(resetLoop sanitize defaults p).page, some m⟩
  | none =>
    match getElementById (resetLoop sanitize defaults p).page "validation-summary" with
    | none => ⟨(resetLoop sanitize defaults p).page, some nullStyleMessage⟩
    | some summary =>
      showFlash
        ((resetLoop sanitize defaults p).page.modify summary (fun e => { e with display := "none" }))
        "success" "Form reset to default values"

/-- The function `resetToDefaults`; `confirmed` is the answer to `confirm`,
`fetch` the outcome of the exchange with `/api/defaults`. -/
def resetToDefaults (sanitize : Element → String → Except String String)
    (p : Page) (confirmed : Bool) (fetch : FetchResult (List (String × JSVal))) : Outcome :=
  if !confirmed then ⟨p, none⟩
  else
    match fetch with
    | .failure m => showFlash p "error" ("Failed to reset form: " ++ m)
    | .response defaults =>
      match (resetBody sanitize p defaults).thrown with
      | none => resetBody sanitize p defaults
      | some m =>
        showFlash (resetBody sanitize p defaults).page "error" ("Failed to reset form: " ++ m)

/-- The function `formatScientific`. -/
def formatScientific (value : JSVal) : JSVal :=
  let num := parseFloat value.toJSString
  if num.isNaN then value
  else if num.abs.ge (JSNum.ofDecimal false 1 6) ||
      (num.abs.lt (JSNum.ofDecimal false 1 (-3)) && !num.strictEq (JSNum.ofNat 0)) then
    .str (num.toExponential 2)
  else .str num.toString

/-- The body of the `forEach` of the submit listener. -/
def submitStep (acc : Page × Bool) (input : Nat) : Page × Bool :=
  let r := validateNumeric acc.1 input
  (r.1, if !r.2 then true else acc.2)

/-- What the submit listener leaves: the page, whether it called
`preventDefault`, and the message of the exception it threw, if any. -/
structure SubmitResult where
  page : Page
  defaultPrevented : Bool
  thrown : Option String
  deriving DecidableEq, Repr

/-- The submit listener of `configForm`. -/
def submitListener (p : Page) : SubmitResult :=
  let r := (querySelectorAll p (fun e => decide ("numeric-input" ∈ e.classList))).foldl
    submitStep (p, false)
  if r.2 then
    ⟨(showFlash r.1 "error" "Please fix validation errors before submitting").page, true,
      (showFlash r.1 "error" "Please fix validation errors before submitting").thrown⟩
  else ⟨r.1, false, none⟩

/-! ## Example pages -/

/-- An element with no attribute set. -/
def Element.blank : Element :=
  { tag := "div", id := "", name := "", type := "", classList := [], checked := false,
    value := "", options := [], disabled := false, dataMin := none, dataMax := none, dataMutex := none,
    textContent := "", innerHTML := "", display := "", depth := 0 }

/-- The form of the specification examples: a checked checkbox `a`, a numeric
field `b` holding `12` with its error element, a text field `c` holding `x`,
the validation summary panel and the flash container. -/
def examplePage : Page :=
  { elements :=
      [ { Element.blank with tag := "form", id := "configForm" },
        { Element.blank with classList := ["form-group"], depth := 1 },
        { Element.blank with
            tag := "input", id := "a", name := "a", type := "checkbox",
            checked := true, value := "on", depth := 2 },
        { Element.blank with
            tag := "span", classList := ["toggle-label"], textContent := "Enabled", depth := 2 },
        { Element.blank with classList := ["form-group"], depth := 1 },
        { Element.blank with
            tag := "input", id := "b", name := "b", type := "text",
            classList := ["numeric-input", "valid"], value := "12",
            dataMin := some "0", dataMax := some "100", depth := 2 },
        { Element.blank with id := "error-b", classList := ["error-message"], depth := 2 },
        { Element.blank with classList := ["form-group"], depth := 1 },
        { Element.blank with
            tag := "input", id := "c", name := "c", type := "text", value := "x", depth := 2 },
        { Element.blank with id := "validation-summary", display := "block" },
        { Element.blank with id := "validation-content", depth := 1 },
        { Element.blank with classList := ["flash-messages"] } ],
    flashContainer := false,
    flashes := [],
    scrolledTo := none }

/-! ## Statements of the specification, for comparison -/

/-- The specification sentence on `validateNumeric`, as written: the parsed
value is a finite number, not below the configured minimum and not above the
configured maximum. -/
def finiteWithinBounds (input : Element) : Prop :=
  (parseFloat input.value).isFinite = true ∧
  (∀ lo, input.dataMin = some lo →
    (parseFloat input.value).lt (parseFloat lo) = false) ∧
  (∀ hi, input.dataMax = some hi →
    (parseFloat input.value).gt (parseFloat hi) = false)

/-- Whether a Number lies in the range `[1e-3, 1e6)`. -/
def inDisplayRange (x : JSNum) : Bool :=
  x.ge (JSNum.ofDecimal false 1 (-3)) && x.lt (JSNum.ofDecimal false 1 6)

/-- The specification sentence on `formatScientific`, as written: exponential
notation exactly when the number lies outside `[1e-3, 1e6)`, the plain decimal
string inside it. -/
def formatsByRange (value : JSVal) : Prop :=
  (inDisplayRange (parseFloat value.toJSString) = false →
    formatScientific value = .str ((parseFloat value.toJSString).toExponential 2)) ∧
  (inDisplayRange (parseFloat value.toJSString) = true →
    formatScientific value = .str (parseFloat value.toJSString).toString)

/-- The element that `document.getElementById(k)` returns, when it is a
checkbox. -/
def checkboxById (p : Page) (k : String) : Option Element :=
  ((getElementById p k).bind p.get?).filter (fun e => e.type == "checkbox")

/-- The value the first loop of `validateAll` stores for a form entry: the
checked state when the element carrying the entry name as id is a checkbox,
otherwise the number `parseFloat` reads from the value, or the value itself
when that is NaN. -/
def entryValue (p : Page) (k v : String) : JSVal :=
  match checkboxById p k with
  | some input => .bool input.checked
  | none => if (parseFloat v).isNaN then .str v else .num (parseFloat v)

/-- An element with its class list and text content blanked: what the loop of
`resetToDefaults` leaves alone on the elements it does not reset. -/
def Element.core (e : Element) : Element :=
  { e with classList := [], textContent := "" }

/-- The element `e` is what applying the default `value` makes of `input`: a
checkbox is checked exactly when the default is truthy; a `select` has the
first option whose value is the default selected and no other; any other
element holds what its value setter stores for the default. -/
def DefaultApplied (sanitize : Element → String → Except String String)
    (input : Element) (value : JSVal) (e : Element) : Prop :=
  (input.type = "checkbox" → e.checked = value.truthy) ∧
  (input.type ≠ "checkbox" → input.tag = "select" →
    e.options = selectByValue input.options value.toJSString ∧
    e.value = selectedValue (selectByValue input.options value.toJSString)) ∧
  (input.type ≠ "checkbox" → input.tag ≠ "select" →
    sanitize input value.toJSString = .ok e.value)

/-- The list item for one message of the key `field`: the bare message
behind a warning sign for `_mutex` and `_general`, the message behind the field
name in bold for any other key. -/
def errorItem (field err : String) : String :=
  if field = "_mutex" ∨ field = "_general" then
    "<li style=\"color: #991b1b;\">⚠ " ++ err ++ "</li>"
  else "<li style=\"color: #991b1b;\"><strong>" ++ field ++ ":</strong> " ++ err ++ "</li>"

/-- The element at index `i` exists and carries the class `c`. -/
def Page.hasClass (p : Page) (i : Nat) (c : String) : Prop :=
  ∃ e, p.get? i = some e ∧ c ∈ e.classList

instance (p : Page) (i : Nat) (c : String) : Decidable (p.hasClass i c) :=
  match h : p.get? i with
  | some e =>
    if hc : c ∈ e.classList then isTrue ⟨e, h, hc⟩
    else isFalse (fun ⟨e', he', hc'⟩ => hc (by rw [h] at he'; cases he'; exact hc'))
  | none => isFalse (fun ⟨_, he', _⟩ => by rw [h] at he'; cases he')

/-- The elements selected by `.numeric-input`. -/
def numericInputs (p : Page) : List Nat :=
  querySelectorAll p (fun e => decide ("numeric-input" ∈ e.classList))

/-- A numeric input holding `Infinity`, with no bound configured. -/
def infinityInput : Element :=
  { Element.blank with
      tag := "input", id := "gain", name := "gain", type := "text",
      classList := ["numeric-input"], value := "Infinity" }

/-- A page whose only element is `infinityInput`. -/
def infinityPage : Page :=
  { elements := [infinityInput], flashContainer := false, flashes := [], scrolledTo := none }

/-- Two checked checkboxes, the first naming the second as its mutex partner. -/
def mutexPage : Page :=
  { elements :=
      [ { Element.blank with
            tag := "input", id := "tcp", name := "tcp", type := "checkbox",
            checked := true, value := "on", dataMutex := some "udp" },
        { Element.blank with
            tag := "input", id := "udp", name := "udp", type := "checkbox",
            checked := true, value := "on", dataMutex := some "tcp" } ],
    flashContainer := false,
    flashes := [],
    scrolledTo := none }

/-- A form whose only control is a checked checkbox named `a` whose id is not
its name. -/
def detachedCheckboxPage : Page :=
  { elements :=
      [ { Element.blank with tag := "form", id := "configForm" },
        { Element.blank with
            tag := "input", id := "chk_a", name := "a", type := "checkbox",
            checked := true, value := "on", depth := 1 } ],
    flashContainer := false,
    flashes := [],
    scrolledTo := none }

/-- A form whose only control is an unchecked checkbox named `udp_host`. -/
def addressCheckboxPage : Page :=
  { elements :=
      [ { Element.blank with tag := "form", id := "configForm" },
        { Element.blank with
            tag := "input", id := "udp_host", name := "udp_host", type := "checkbox",
            value := "on", depth := 1 } ],
    flashContainer := false,
    flashes := [],
    scrolledTo := none }

/-- A form after a failed submission: checkbox `a` is unchecked, the numeric
fields `b` and `udp_port` carry the `error` marking and their error elements
are visible; the page has its flash container. -/
def stalePage : Page :=
  { elements :=
      [ { Element.blank with tag := "form", id := "configForm" },
        { Element.blank with
            tag := "input", id := "a", name := "a", type := "checkbox",
            value := "on", depth := 1 },
        { Element.blank with
            tag := "input", id := "b", name := "b", type := "text",
            classList := ["numeric-input", "error"], value := "abc", depth := 1 },
        { Element.blank with
            id := "error-b", classList := ["error-message", "visible"],
            textContent := "Please enter a valid number", depth := 1 },
        { Element.blank with
            tag := "input", id := "udp_port", name := "udp_port", type := "text",
            classList := ["numeric-input", "error"], value := "99999",
            dataMax := some "65535", depth := 1 },
        { Element.blank with
            id := "error-udp_port", classList := ["error-message", "visible"],
            textContent := "Value must be at most 65535", depth := 1 },
        { Element.blank with id := "validation-summary", display := "block" },
        { Element.blank with id := "validation-content", depth := 1 },
        { Element.blank with classList := ["flash-messages"] } ],
    flashContainer := false,
    flashes := [],
    scrolledTo := none }

/-- A page that has a form with one numeric field holding `abc`, but neither
the validation panels nor a `.container` or flash container. -/
def barePage : Page :=
  { elements :=
      [ { Element.blank with tag := "form", id := "configForm" },
        { Element.blank with classList := ["form-group"], depth := 1 },
        { Element.blank with
            tag := "input", id := "b", name := "b", type := "text",
            classList := ["numeric-input"], value := "abc", depth := 2 } ],
    flashContainer := false,
    flashes := [],
    scrolledTo := none }

/-- A form inside a `.container`, with two numeric fields: `x` holds `abc`,
`y` holds `7`; no flash container yet. -/
def submitPage : Page :=
  { elements :=
      [ { Element.blank with classList := ["container"] },
        { Element.blank with tag := "form", id := "configForm", depth := 1 },
        { Element.blank with
            tag := "input", id := "x", name := "x", type := "text",
            classList := ["numeric-input"], value := "abc", depth := 2 },
        { Element.blank with
            tag := "input", id := "y", name := "y", type := "text",
            classList := ["numeric-input"], value := "7", depth := 2 } ],
    flashContainer := false,
    flashes := [],
    scrolledTo := none }

/-- A page to reset: a checked checkbox `a`, an unchecked checkbox `c`, a text
field `b` marked as an error with its message visible, a `select` named `s`
offering `x` and `y` with `y` chosen, the summary panel and a flash
container. -/
def resetPage : Page :=
  { elements :=
      [ { Element.blank with tag := "form", id := "configForm" },
        { Element.blank with
            tag := "input", id := "a", name := "a", type := "checkbox",
            checked := true, value := "on", depth := 1 },
        { Element.blank with
            tag := "input", id := "c", name := "c", type := "checkbox",
            value := "on", depth := 1 },
        { Element.blank with
            tag := "input", id := "b", name := "b", type := "text",
            classList := ["numeric-input", "error"], value := "abc", depth := 1 },
        { Element.blank with
            id := "error-b", classList := ["error-message", "visible"],
            textContent := "Please enter a valid number", depth := 1 },
        { Element.blank with
            tag := "select", id := "s", name := "s", type := "select-one",
            value := "y", options := [("x", false), ("y", true)], depth := 1 },
        { Element.blank with id := "validation-summary", display := "block" },
        { Element.blank with classList := ["flash-messages"] } ],
    flashContainer := false,
    flashes := [],
    scrolledTo := none }

/-- A value setter that stores the string it is given, as that of a text
input does for a string without line breaks. -/
def storeAsGiven (_ : Element) (s : String) : Except String String := .ok s

/-! ## Class lists, element updates and id lookup -/

theorem mem_classAdd (c d : String) (cl : List String) :
    c ∈ classAdd d cl ↔ c = d ∨ c ∈ cl := by
  unfold classAdd
  by_cases h : d ∈ cl
  · simp only [h, if_true]
    constructor
    · intro hc; exact Or.inr hc
    · rintro (rfl | hc)
      · exact h
      · exact hc
  · simp only [h, if_false, List.mem_append, List.mem_singleton]
    tauto

theorem mem_classRemove (c : String) (ds cl : List String) :
    c ∈ classRemove ds cl ↔ c ∈ cl ∧ c ∉ ds := by
  simp [classRemove, List.mem_filter]

theorem mem_classToggle (c d : String) (b : Bool) (cl : List String) :
    c ∈ classToggle d b cl ↔ (if c = d then b = true else c ∈ cl) := by
  unfold classToggle
  cases b
  · by_cases h : c = d <;> simp [mem_classRemove, h]
  · by_cases h : c = d
    · simp [mem_classAdd, h]
    · simp [mem_classAdd, h]

theorem Page.get?_modify (p : Page) (i : Nat) (f : Element → Element) (j : Nat) :
    (p.modify i f).get? j = if i = j then (p.get? j).map f else p.get? j := by
  unfold Page.modify Page.get?
  simp only [List.getElem?_modify]
  by_cases h : i = j
  · subst h
    cases p.elements[i]? <;> simp
  · cases p.elements[j]? <;> simp [h]

theorem Page.map_modify {β : Type} (g : Element → β) (p : Page) (i : Nat) (f : Element → Element)
    (h : ∀ e, g (f e) = g e) : (p.modify i f).elements.map g = p.elements.map g := by
  apply List.ext_getElem?
  intro j
  have := Page.get?_modify p i f j
  unfold Page.get? at this
  rw [List.getElem?_map, List.getElem?_map, this]
  by_cases hij : i = j
  · simp only [hij, if_true]
    cases p.elements[j]? <;> simp [h]
  · simp [hij]

theorem Page.map_get? {β : Type} (g : Element → β) {p q : Page}
    (h : q.elements.map g = p.elements.map g) (j : Nat) :
    (q.get? j).map g = (p.get? j).map g := by
  unfold Page.get?
  rw [← List.getElem?_map, ← List.getElem?_map, h]

theorem findIndex_congr (q : Element → Bool) :
    ∀ l l' : List Element, l.map q = l'.map q → findIndex q l = findIndex q l'
  | [], [], _ => rfl
  | [], _ :: _, h => by simp at h
  | _ :: _, [], h => by simp at h
  | a :: l, b :: l', h => by
    simp only [List.map_cons, List.cons.injEq] at h
    simp only [findIndex, h.1, findIndex_congr q l l' h.2]

theorem getElementById_congr {p q : Page}
    (h : q.elements.map Element.id = p.elements.map Element.id) (s : String) :
    getElementById q s = getElementById p s := by
  unfold getElementById
  split
  · rfl
  · apply findIndex_congr
    have : ∀ l : List Element, l.map (fun e => e.id == s) = (l.map Element.id).map (fun x => x == s) := by
      intro l; simp
    rw [this, this, h]

theorem findIndex_some (q : Element → Bool) :
    ∀ (l : List Element) (i : Nat), findIndex q l = some i → ∃ e, l[i]? = some e ∧ q e = true
  | [], _, h => by simp [findIndex] at h
  | a :: l, i, h => by
    unfold findIndex at h
    by_cases ha : q a = true
    · simp only [ha, if_true, Option.some.injEq] at h
      subst h
      exact ⟨a, by simp, ha⟩
    · simp only [ha, Bool.false_eq_true, if_false, Option.map_eq_some'] at h
      obtain ⟨k, hk, rfl⟩ := h
      obtain ⟨e, he, hq⟩ := findIndex_some q l k hk
      exact ⟨e, by simpa using he, hq⟩

theorem getElementById_some {p : Page} {s : String} {i : Nat}
    (h : getElementById p s = some i) : ∃ e, p.get? i = some e ∧ e.id = s ∧ s ≠ "" := by
  unfold getElementById at h
  by_cases hs : s = ""
  · simp [hs] at h
  · simp only [hs, if_false] at h
    obtain ⟨e, he, hq⟩ := findIndex_some _ _ _ h
    exact ⟨e, he, by simpa using hq, hs⟩

theorem Page.hasClass_modify (p : Page) (k : Nat) (f : Element → Element) (i : Nat) (c : String) :
    (p.modify k f).hasClass i c ↔
      if k = i then ∃ e, p.get? i = some e ∧ c ∈ (f e).classList else p.hasClass i c := by
  unfold Page.hasClass
  rw [Page.get?_modify]
  by_cases h : k = i
  · simp only [h, if_true]
    cases p.get? i <;> simp
  · simp [h]

theorem Page.hasClass_modify_keep (p : Page) (k : Nat) (f : Element → Element) (i : Nat)
    (c : String) (hf : ∀ e, c ∈ (f e).classList ↔ c ∈ e.classList) :
    (p.modify k f).hasClass i c ↔ p.hasClass i c := by
  rw [Page.hasClass_modify]
  split
  · unfold Page.hasClass
    simp only [hf]
  · rfl

theorem mem_querySelectorAll (p : Page) (sel : Element → Bool) (i : Nat) :
    i ∈ querySelectorAll p sel ↔ ∃ e, p.get? i = some e ∧ sel e = true := by
  unfold querySelectorAll Page.get?
  rw [List.mem_filter, List.mem_range]
  constructor
  · rintro ⟨_, h⟩
    cases he : p.elements[i]? with
    | none => simp [he] at h
    | some e => exact ⟨e, rfl, by simpa [he] using h⟩
  · rintro ⟨e, he, hs⟩
    refine ⟨?_, by simp [he, hs]⟩
    by_contra hlt
    rw [List.getElem?_eq_none (by omega)] at he
    exact absurd he (by simp)

/-! ## `showFlash` -/

theorem createFlashContainer_elements (p : Page) :
    (createFlashContainer p).page.elements = p.elements := by
  unfold createFlashContainer
  split
  · rfl
  · split
    · rfl
    · split <;> rfl

theorem createFlashContainer_flashes (p : Page) :
    (createFlashContainer p).page.flashes = p.flashes := by
  unfold createFlashContainer
  split
  · rfl
  · split
    · rfl
    · split <;> rfl

theorem showFlash_elements (p : Page) (type message : String) :
    (showFlash p type message).page.elements = p.elements := by
  unfold showFlash
  split
  · rfl
  · split
    · exact createFlashContainer_elements p
    · exact createFlashContainer_elements p

theorem showFlash_get? (p : Page) (type message : String) (i : Nat) :
    (showFlash p type message).page.get? i = p.get? i := by
  unfold Page.get?
  rw [showFlash_elements]

theorem showFlash_hasClass (p : Page) (type message : String) (i : Nat) (c : String) :
    (showFlash p type message).page.hasClass i c ↔ p.hasClass i c := by
  unfold Page.hasClass
  rw [showFlash_get?]

theorem showFlash_thrown_none_iff (p : Page) (type message : String) :
    (showFlash p type message).thrown = none ↔
      hasFlashContainer p = true ∨ (createFlashContainer p).thrown = none := by
  unfold showFlash
  by_cases h : hasFlashContainer p = true
  · simp [h]
  · simp only [h, if_false, false_or]
    cases hc : (createFlashContainer p).thrown <;> simp

theorem showFlash_flashes (p : Page) (type message : String) :
    (showFlash p type message).page.flashes =
      if (showFlash p type message).thrown = none then p.flashes ++ [⟨type, message⟩]
      else p.flashes := by
  unfold showFlash
  by_cases h : hasFlashContainer p = true
  · simp [h]
  · simp only [h, if_false]
    cases hc : (createFlashContainer p).thrown with
    | none => simp [createFlashContainer_flashes]
    | some m => simp [createFlashContainer_flashes]

/-- What `showFlash` looks at on the page: tags, depths, and the classes
`container` and `flash-messages`. -/
theorem showFlash_thrown_congr {p q : Page} (type message : String)
    (hsk : q.elements.map (fun e => (e.tag, e.depth, decide ("container" ∈ e.classList),
        decide ("flash-messages" ∈ e.classList))) =
      p.elements.map (fun e => (e.tag, e.depth, decide ("container" ∈ e.classList),
        decide ("flash-messages" ∈ e.classList))))
    (hflag : q.flashContainer = p.flashContainer) :
    (hasFlashContainer q = hasFlashContainer p) ∧
    ((createFlashContainer q).thrown = (createFlashContainer p).thrown) ∧
    ((showFlash q type message).thrown = (showFlash p type message).thrown) := by
  have hdepth : q.elements.map Element.depth = p.elements.map Element.depth := by
    have := congrArg (List.map (fun x : String × Nat × Bool × Bool => x.2.1)) hsk
    simpa [List.map_map, Function.comp] using this
  have hcont : q.elements.map (fun e => decide ("container" ∈ e.classList)) =
      p.elements.map (fun e => decide ("container" ∈ e.classList)) := by
    have := congrArg (List.map (fun x : String × Nat × Bool × Bool => x.2.2.1)) hsk
    simpa [List.map_map, Function.comp] using this
  have hfm : q.elements.map (fun e => decide ("flash-messages" ∈ e.classList)) =
      p.elements.map (fun e => decide ("flash-messages" ∈ e.classList)) := by
    have := congrArg (List.map (fun x : String × Nat × Bool × Bool => x.2.2.2)) hsk
    simpa [List.map_map, Function.comp] using this
  have htag : q.elements.map (fun e => e.tag == "form") =
      p.elements.map (fun e => e.tag == "form") := by
    have := congrArg (List.map (fun x : String × Nat × Bool × Bool => x.1 == "form")) hsk
    simpa [List.map_map, Function.comp] using this
  have h1 : hasFlashContainer q = hasFlashContainer p := by
    unfold hasFlashContainer
    rw [hflag]
    congr 1
    have : ∀ l : List Element, l.any (fun e => decide ("flash-messages" ∈ e.classList)) =
        (l.map (fun e => decide ("flash-messages" ∈ e.classList))).any id := by
      intro l
      induction l with
      | nil => rfl
      | cons a t ih => simp [List.any_cons, ih]
    rw [this, this, hfm]
  have h2 : (createFlashContainer q).thrown = (createFlashContainer p).thrown := by
    unfold createFlashContainer
    rw [findIndex_congr _ q.elements p.elements hcont,
      findIndex_congr _ q.elements p.elements htag, hdepth]
    split
    · rfl
    · split
      · rfl
      · split <;> rfl
  refine ⟨h1, h2, ?_⟩
  cases hp : (showFlash p type message).thrown with
  | none =>
    rw [showFlash_thrown_none_iff] at hp ⊢
    rw [h1, h2]
    exact hp
  | some m =>
    unfold showFlash at hp ⊢
    rw [h1, h2]
    by_cases h : hasFlashContainer p = true
    · simp [h] at hp
    · simp only [h, if_false] at hp ⊢
      cases hc : (createFlashContainer p).thrown with
      | none => simp [hc] at hp
      | some m' => simpa [hc] using hp

/-! ## `validateNumeric` -/

theorem numericCheck_true_iff (input : Element) :
    (numericCheck input).1 = true ↔
      (parseFloat input.value).isNaN = false ∧
      (∀ lo, input.dataMin = some lo →
        (parseFloat input.value).lt (parseFloat lo) = false) ∧
      (∀ hi, input.dataMax = some hi →
        (parseFloat input.value).gt (parseFloat hi) = false) := by
  unfold numericCheck
  cases hn : (parseFloat input.value).isNaN
  · cases hmin : input.dataMin with
    | none =>
      cases hmax : input.dataMax with
      | none => simp [Option.filter, hn]
      | some hi =>
        cases hg : (parseFloat input.value).gt (parseFloat hi) <;> simp [Option.filter, hg, hn]
    | some lo =>
      cases hl : (parseFloat input.value).lt (parseFloat lo)
      · cases hmax : input.dataMax with
        | none => simp [Option.filter, hl, hn]
        | some hi =>
          cases hg : (parseFloat input.value).gt (parseFloat hi) <;> simp [Option.filter, hl, hg, hn]
      · simp [Option.filter, hl, hn]
  · simp [hn]

theorem validateNumeric_snd (p : Page) (i : Nat) (input : Element) (h : p.get? i = some input) :
    (validateNumeric p i).2 = (numericCheck input).1 := by
  unfold Page.get? at h
  unfold validateNumeric
  rw [h]
  simp only
  split <;> rfl

/-- C1 (as amended): `validateNumeric` returns true exactly when the parsed
value is not NaN, is not below the configured minimum and is not above the
configured maximum; an infinite value passes when no bound excludes it. -/
theorem validateNumeric_true_iff (p : Page) (i : Nat) (input : Element)
    (h : p.get? i = some input) :
    (validateNumeric p i).2 = true ↔
      (parseFloat input.value).isNaN = false ∧
      (∀ lo, input.dataMin = some lo →
        (parseFloat input.value).lt (parseFloat lo) = false) ∧
      (∀ hi, input.dataMax = some hi →
        (parseFloat input.value).gt (parseFloat hi) = false) := by
  rw [validateNumeric_snd p i input h]
  exact numericCheck_true_iff input

/-- Witness for C1: on the example form, field `b` holds `12` between its
bounds `0` and `100`, and `validateNumeric` returns true. -/
theorem validateNumeric_true_iff_witness :
    (examplePage.get? 5).map (fun e => (e.value, e.dataMin, e.dataMax)) =
      some ("12", some "0", some "100") ∧
    (validateNumeric examplePage 5).2 = true :=
  ⟨by decide,
    (validateNumeric_true_iff examplePage 5 _ rfl).mpr
      ⟨by decide,
        fun lo h => by
          have hlo : lo = "0" := (Option.some.inj h).symm
          subst hlo
          decide,
        fun hi h => by
          have hhi : hi = "100" := (Option.some.inj h).symm
          subst hhi
          decide⟩⟩

/-- Counterexample for C1: with no bound configured the input `Infinity` is
accepted, although the parsed value is not a finite number. -/
theorem validateNumeric_accepts_infinity :
    infinityPage.get? 0 = some infinityInput ∧
    (validateNumeric infinityPage 0).2 = true ∧
    (parseFloat infinityInput.value).isFinite = false ∧
    ¬ finiteWithinBounds infinityInput :=
  ⟨rfl, by decide, by decide, fun h => absurd h.1 (by decide)⟩

/-! ## `handleMutex` -/

theorem updateToggleLabel_map {β : Type} (g : Element → β)
    (hg : ∀ (e : Element) (s : String), g { e with textContent := s } = g e)
    (p : Page) (c : Nat) :
    (updateToggleLabel p c).elements.map g = p.elements.map g := by
  unfold updateToggleLabel
  split
  · rfl
  · split
    · exact Page.map_modify g _ _ _ (fun e => hg e _)
    · rfl

/-- C2: when a checked checkbox names an existing partner in `data-mutex`,
the partner is unchecked after `handleMutex`, so the two are not both
checked. -/
theorem handleMutex_unchecks_partner (p : Page) (c j : Nat) (cb : Element) (m : String)
    (hcb : p.get? c = some cb) (hm : cb.dataMutex = some m)
    (hj : getElementById p m = some j) (hchecked : cb.checked = true) :
    (∃ partner, (handleMutex p c).get? j = some partner ∧ partner.checked = false) ∧
    (((handleMutex p c).get? c).map Element.checked,
      ((handleMutex p c).get? j).map Element.checked) ≠ (some true, some true) := by
  obtain ⟨pe, hpe, _, hne⟩ := getElementById_some hj
  have key : ((handleMutex p c).get? j).map Element.checked = some false := by
    unfold Page.get? at hcb
    unfold handleMutex
    simp only [hcb, hm, hne, if_false, hj, hchecked, if_true]
    rw [Page.map_get? Element.checked (updateToggleLabel_map Element.checked (fun _ _ => rfl) _ _),
      Page.map_get? Element.checked (updateToggleLabel_map Element.checked (fun _ _ => rfl) _ _),
      Page.get?_modify]
    simp [hpe]
  constructor
  · cases hq : (handleMutex p c).get? j with
    | none => simp [hq] at key
    | some partner =>
      refine ⟨partner, rfl, ?_⟩
      simpa [hq] using key
  · intro h
    rw [key] at h
    simp at h

/-- Witness for C2: two checked checkboxes, each the partner of the other;
after `handleMutex` on the first, the second is unchecked. -/
theorem handleMutex_unchecks_partner_witness :
    (∃ partner, (handleMutex mutexPage 0).get? 1 = some partner ∧ partner.checked = false) ∧
    (((handleMutex mutexPage 0).get? 0).map Element.checked,
      ((handleMutex mutexPage 0).get? 1).map Element.checked) ≠ (some true, some true) :=
  handleMutex_unchecks_partner mutexPage 0 1 _ "udp" rfl rfl (by decide) rfl

/-! ## `formatScientific` -/

theorem JSNum.isNaN_abs (x : JSNum) : x.abs.isNaN = x.isNaN := by
  cases x <;> rfl

theorem JSNum.ge_eq_not_lt (x c : JSNum) (hx : x.isNaN = false) (hc : c.isNaN = false) :
    x.ge c = !x.lt c := by
  cases x <;> cases c <;> simp_all [JSNum.ge, JSNum.isNaN]

theorem JSNum.abs_lt_of_strictEq_zero (x : JSNum) (neg : Bool) (m : Nat) (e : Int)
    (hm : 0 < m) (hx : x.strictEq (JSNum.fin false 0 0) = true) :
    x.abs.lt (JSNum.fin neg m e) = !neg := by
  cases x with
  | nan => simp [JSNum.strictEq] at hx
  | inf a => simp [JSNum.strictEq] at hx
  | fin s k q =>
    simp only [JSNum.strictEq, JSNum.scaled, decide_eq_true_eq] at hx
    have hk : k = 0 := by
      by_contra hk
      have hpos : 0 < k * 2 ^ (q - min q 0).toNat := Nat.mul_pos (Nat.pos_of_ne_zero hk) (by positivity)
      split at hx <;> simp at hx <;> omega
    subst hk
    have hpos : 0 < m * 2 ^ (e - min q e).toNat := Nat.mul_pos hm (by positivity)
    cases neg
    · simp [JSNum.abs, JSNum.lt, JSNum.scaled]
      try omega
    · simp [JSNum.abs, JSNum.lt, JSNum.scaled]
      try omega

theorem ofNat_zero_eq : JSNum.ofNat 0 = JSNum.fin false 0 0 := by decide

theorem upperBound_eq :
    JSNum.ofDecimal false 1 6 = JSNum.fin false 8589934592000000 (-33) := by decide

/-- C8 (as amended): for a value that parses as a number, `formatScientific`
returns exponential notation when the number is not zero and its absolute
value lies outside `[1e-3, 1e6)`, and the plain decimal string when the number
is zero or its absolute value lies inside that range. -/
theorem formatScientific_by_magnitude (value : JSVal)
    (hnum : (parseFloat value.toJSString).isNaN = false) :
    ((parseFloat value.toJSString).strictEq (JSNum.ofNat 0) = false ∧
        inDisplayRange (parseFloat value.toJSString).abs = false →
      formatScientific value = .str ((parseFloat value.toJSString).toExponential 2)) ∧
    ((parseFloat value.toJSString).strictEq (JSNum.ofNat 0) = true ∨
        inDisplayRange (parseFloat value.toJSString).abs = true →
      formatScientific value = .str (parseFloat value.toJSString).toString) := by
  have habs : (parseFloat value.toJSString).abs.isNaN = false := by
    rw [JSNum.isNaN_abs]; exact hnum
  have hge6 := JSNum.ge_eq_not_lt _ (JSNum.ofDecimal false 1 6) habs (by decide)
  have hge3 := JSNum.ge_eq_not_lt _ (JSNum.ofDecimal false 1 (-3)) habs (by decide)
  unfold formatScientific inDisplayRange
  simp only [hnum, Bool.false_eq_true, if_false, hge6, hge3]
  constructor
  · rintro ⟨hz, hr⟩
    rw [hz]
    cases h3 : (parseFloat value.toJSString).abs.lt (JSNum.ofDecimal false 1 (-3)) <;>
      cases h6 : (parseFloat value.toJSString).abs.lt (JSNum.ofDecimal false 1 6) <;>
      simp_all
  · rintro (hz | hr)
    · have h3 : (parseFloat value.toJSString).abs.lt (JSNum.ofDecimal false 1 6) = true := by
        rw [upperBound_eq]
        rw [ofNat_zero_eq] at hz
        simpa using JSNum.abs_lt_of_strictEq_zero _ false _ _ (by decide) hz
      simp [hz, h3]
    · cases h3 : (parseFloat value.toJSString).abs.lt (JSNum.ofDecimal false 1 (-3)) <;>
        cases h6 : (parseFloat value.toJSString).abs.lt (JSNum.ofDecimal false 1 6) <;>
        simp_all

/-- Witness for C8: `formatScientific(1500000)` is in exponential notation and
`formatScientific(42)` is `"42"`. -/
theorem formatScientific_by_magnitude_witness :
    formatScientific (.num (JSNum.ofNat 1500000)) = .str "1.50e+6" ∧
    formatScientific (.num (JSNum.ofNat 42)) = .str "42" :=
  ⟨((formatScientific_by_magnitude (.num (JSNum.ofNat 1500000)) (by decide)).1
      ⟨by decide, by decide⟩).trans (by decide),
   ((formatScientific_by_magnitude (.num (JSNum.ofNat 42)) (by decide)).2
      (Or.inr (by decide))).trans (by decide)⟩

/-- Counterexample for C8: zero lies outside `[1e-3, 1e6)`, yet
`formatScientific(0)` is the plain string `"0"` and not the exponential
notation `"0.00e+0"`. -/
theorem formatScientific_zero_plain :
    inDisplayRange (parseFloat (JSVal.num (JSNum.ofNat 0)).toJSString) = false ∧
    formatScientific (.num (JSNum.ofNat 0)) = .str "0" ∧
    (parseFloat (JSVal.num (JSNum.ofNat 0)).toJSString).toExponential 2 = "0.00e+0" ∧
    ¬ formatsByRange (.num (JSNum.ofNat 0)) := by
  refine ⟨by decide, by decide, by decide, ?_⟩
  intro h
  have h1 := h.1 (by decide)
  exact absurd h1 (by decide)

/-! ## The submit listener -/

/-- The fields `validateNumeric` reads to decide validity. -/
theorem numericCheck_congr (a b : Element)
    (h : (a.value, a.dataMin, a.dataMax) = (b.value, b.dataMin, b.dataMax)) :
    numericCheck a = numericCheck b := by
  simp only [Prod.mk.injEq] at h
  unfold numericCheck
  rw [h.1, h.2.1, h.2.2]

theorem validateNumeric_map {β : Type} (g : Element → β)
    (hg : ∀ (e : Element) (cl : List String) (s : String),
      g { e with classList := cl, textContent := s } = g e)
    (p : Page) (i : Nat) :
    (validateNumeric p i).1.elements.map g = p.elements.map g := by
  unfold validateNumeric
  split
  · rfl
  · simp only
    split
    · rw [Page.map_modify g _ _ _ (fun e => hg e _ _)]
      exact Page.map_modify g _ _ _ (fun e => hg e _ e.textContent)
    · exact Page.map_modify g _ _ _ (fun e => hg e _ e.textContent)

theorem validateNumeric_flashes (p : Page) (i : Nat) :
    (validateNumeric p i).1.flashes = p.flashes := by
  unfold validateNumeric
  split
  · rfl
  · simp only
    split <;> rfl

theorem validateNumeric_snd_congr {p q : Page}
    (h : q.elements.map (fun e => (e.value, e.dataMin, e.dataMax)) =
      p.elements.map (fun e => (e.value, e.dataMin, e.dataMax))) (i : Nat) :
    (validateNumeric q i).2 = (validateNumeric p i).2 := by
  have hi := Page.map_get? _ h i
  cases hp : p.get? i with
  | none =>
    cases hq : q.get? i with
    | none =>
      unfold Page.get? at hp hq
      simp [validateNumeric, hp, hq]
    | some b => simp [hp, hq] at hi
  | some a =>
    cases hq : q.get? i with
    | none => simp [hp, hq] at hi
    | some b =>
      rw [validateNumeric_snd p i a hp, validateNumeric_snd q i b hq]
      rw [hp, hq] at hi
      simp only [Option.map_some', Option.some.injEq] at hi
      rw [numericCheck_congr b a hi]

theorem validateNumeric_hasClass_self (p : Page) (i : Nat) (el : Element)
    (h : p.get? i = some el) :
    ((validateNumeric p i).1.hasClass i "error" ↔ (validateNumeric p i).2 = false) ∧
    ((validateNumeric p i).1.hasClass i "valid" ↔ (validateNumeric p i).2 = true) := by
  have hel : p.elements[i]? = some el := h
  unfold validateNumeric
  rw [hel]
  simp only
  split
  · constructor
    · rw [Page.hasClass_modify_keep _ _ _ _ _ (by intro e; simp [mem_classToggle]),
        Page.hasClass_modify]
      simp [h, mem_classToggle]
    · rw [Page.hasClass_modify_keep _ _ _ _ _ (by intro e; simp [mem_classToggle]),
        Page.hasClass_modify]
      simp [h, mem_classToggle]
  · constructor
    · rw [Page.hasClass_modify]
      simp [h, mem_classToggle]
    · rw [Page.hasClass_modify]
      simp [h, mem_classToggle]

theorem validateNumeric_hasClass_other (p : Page) (i j : Nat) (c : String) (hij : j ≠ i)
    (hc : c ≠ "visible") :
    (validateNumeric p j).1.hasClass i c ↔ p.hasClass i c := by
  unfold validateNumeric
  split
  · rfl
  · simp only
    split
    · rw [Page.hasClass_modify_keep _ _ _ _ _ (by intro e; simp [mem_classToggle, hc]),
        Page.hasClass_modify]
      simp [hij]
    · rw [Page.hasClass_modify]
      simp [hij]

theorem submit_fold (p : Page) :
    ∀ (l : List Nat) (acc : Page × Bool),
      acc.1.elements.map (fun e => (e.value, e.dataMin, e.dataMax)) =
        p.elements.map (fun e => (e.value, e.dataMin, e.dataMax)) →
      ((l.foldl submitStep acc).2 = true ↔
        acc.2 = true ∨ ∃ i ∈ l, (validateNumeric p i).2 = false) ∧
      (l.foldl submitStep acc).1.flashes = acc.1.flashes ∧
      ∀ i c, (c = "error" ∨ c = "valid") → (∃ e, p.get? i = some e) →
        ((l.foldl submitStep acc).1.hasClass i c ↔
          if i ∈ l then (validateNumeric p i).2 = decide (c = "valid")
          else acc.1.hasClass i c)
  | [], acc, _ => by simp
  | j :: t, acc, hst => by
    have hst1 : (submitStep acc j).1.elements.map (fun e => (e.value, e.dataMin, e.dataMax)) =
        p.elements.map (fun e => (e.value, e.dataMin, e.dataMax)) := by
      unfold submitStep
      simp only
      rw [validateNumeric_map (fun e => (e.value, e.dataMin, e.dataMax)) (fun _ _ _ => rfl)]
      exact hst
    have hv : (validateNumeric acc.1 j).2 = (validateNumeric p j).2 :=
      validateNumeric_snd_congr hst j
    obtain ⟨ih1, ih2, ih3⟩ := submit_fold p t (submitStep acc j) hst1
    rw [List.foldl_cons]
    refine ⟨?_, ?_, ?_⟩
    · rw [ih1]
      simp only [submitStep, hv, List.mem_cons, exists_eq_or_imp]
      cases hj : (validateNumeric p j).2 <;> simp [or_comm]
    · rw [ih2]
      exact validateNumeric_flashes _ _
    · intro i c hc hex
      rw [ih3 i c hc hex]
      by_cases hit : i ∈ t
      · simp [hit]
      · simp only [hit, if_false, List.mem_cons, or_false]
        by_cases hij : i = j
        · subst hij
          simp only [if_true]
          obtain ⟨e, he⟩ := hex
          have hq := Page.map_get? _ hst i
          rw [he] at hq
          cases hqi : acc.1.get? i with
          | none => simp [hqi] at hq
          | some b =>
            have := validateNumeric_hasClass_self acc.1 i b hqi
            rw [hv] at this
            simp only [submitStep]
            rcases hc with rfl | rfl
            · simpa using this.1
            · simpa using this.2
        · simp only [hij, if_false, submitStep]
          apply validateNumeric_hasClass_other _ _ _ _ (Ne.symm hij)
          rcases hc with rfl | rfl <;> decide

theorem validateNumeric_skeleton (p : Page) (i : Nat) :
    (validateNumeric p i).1.elements.map
        (fun e => (e.tag, e.depth, decide ("container" ∈ e.classList),
          decide ("flash-messages" ∈ e.classList))) =
      p.elements.map
        (fun e => (e.tag, e.depth, decide ("container" ∈ e.classList),
          decide ("flash-messages" ∈ e.classList))) ∧
    (validateNumeric p i).1.flashContainer = p.flashContainer := by
  unfold validateNumeric
  split
  · exact ⟨rfl, rfl⟩
  · simp only
    split
    · refine ⟨?_, rfl⟩
      rw [Page.map_modify _ _ _ _ (by intro e; simp [mem_classToggle])]
      exact Page.map_modify _ _ _ _ (by intro e; simp [mem_classToggle])
    · refine ⟨?_, rfl⟩
      exact Page.map_modify _ _ _ _ (by intro e; simp [mem_classToggle])

theorem submit_fold_skeleton :
    ∀ (l : List Nat) (acc : Page × Bool),
      (l.foldl submitStep acc).1.elements.map
          (fun e => (e.tag, e.depth, decide ("container" ∈ e.classList),
            decide ("flash-messages" ∈ e.classList))) =
        acc.1.elements.map
          (fun e => (e.tag, e.depth, decide ("container" ∈ e.classList),
            decide ("flash-messages" ∈ e.classList))) ∧
      (l.foldl submitStep acc).1.flashContainer = acc.1.flashContainer
  | [], _ => ⟨rfl, rfl⟩
  | j :: t, acc => by
    rw [List.foldl_cons]
    obtain ⟨h1, h2⟩ := submit_fold_skeleton t (submitStep acc j)
    obtain ⟨h3, h4⟩ := validateNumeric_skeleton acc.1 j
    exact ⟨h1.trans h3, h2.trans h4⟩

/-- C9 (as amended): the submit listener runs `validateNumeric` on every
element of class `numeric-input` (each ends up carrying the `error` or `valid`
marking of its own check, a failure does not stop the walk) and calls
`preventDefault` exactly when `validateNumeric` returns false for at least one
of them; when it does, the error flash message is shown provided the page has
a flash container or `createFlashContainer` can create one, and otherwise
`showFlash` throws after the submission is blocked. -/
theorem submitListener_blocks_iff (p : Page) :
    ((submitListener p).defaultPrevented = true ↔
      ∃ i e, p.get? i = some e ∧ "numeric-input" ∈ e.classList ∧
        (validateNumeric p i).2 = false) ∧
    (∀ i e, p.get? i = some e → "numeric-input" ∈ e.classList →
      ((submitListener p).page.hasClass i "error" ↔ (validateNumeric p i).2 = false) ∧
      ((submitListener p).page.hasClass i "valid" ↔ (validateNumeric p i).2 = true)) ∧
    ((submitListener p).defaultPrevented = false →
      (submitListener p).page.flashes = p.flashes ∧ (submitListener p).thrown = none) ∧
    ((submitListener p).defaultPrevented = true →
      ((submitListener p).thrown = none ↔
        hasFlashContainer p = true ∨ (createFlashContainer p).thrown = none) ∧
      (submitListener p).page.flashes =
        if (submitListener p).thrown = none then
          p.flashes ++ [⟨"error", "Please fix validation errors before submitting"⟩]
        else p.flashes) := by
  obtain ⟨h1, h2, h3⟩ := submit_fold p (numericInputs p) (p, false) rfl
  obtain ⟨hsk, hflag⟩ := submit_fold_skeleton (numericInputs p) (p, false)
  have hmem : ∀ i, i ∈ numericInputs p ↔
      ∃ e, p.get? i = some e ∧ "numeric-input" ∈ e.classList := by
    intro i
    unfold numericInputs
    rw [mem_querySelectorAll]
    simp
  have hsl : submitListener p =
      if ((numericInputs p).foldl submitStep (p, false)).2 = true then
        ⟨(showFlash ((numericInputs p).foldl submitStep (p, false)).1 "error"
            "Please fix validation errors before submitting").page, true,
          (showFlash ((numericInputs p).foldl submitStep (p, false)).1 "error"
            "Please fix validation errors before submitting").thrown⟩
      else ⟨((numericInputs p).foldl submitStep (p, false)).1, false, none⟩ := rfl
  simp only [Bool.false_eq_true, false_or] at h1
  have hprev : (submitListener p).defaultPrevented =
      ((numericInputs p).foldl submitStep (p, false)).2 := by
    rw [hsl]
    cases ((numericInputs p).foldl submitStep (p, false)).2 <;> simp
  have hcls : ∀ i c, (submitListener p).page.hasClass i c ↔
      ((numericInputs p).foldl submitStep (p, false)).1.hasClass i c := by
    intro i c
    rw [hsl]
    cases ((numericInputs p).foldl submitStep (p, false)).2
    · simp
    · simp only [if_true]
      exact showFlash_hasClass _ _ _ i c
  refine ⟨?_, ?_, ?_, ?_⟩
  · rw [hprev, h1]
    constructor
    · rintro ⟨i, hi, hv⟩
      obtain ⟨e, he, hc⟩ := (hmem i).mp hi
      exact ⟨i, e, he, hc, hv⟩
    · rintro ⟨i, e, he, hc, hv⟩
      exact ⟨i, (hmem i).mpr ⟨e, he, hc⟩, hv⟩
  · intro i e he hc
    have hi : i ∈ numericInputs p := (hmem i).mpr ⟨e, he, hc⟩
    have herr := h3 i "error" (Or.inl rfl) ⟨e, he⟩
    have hval := h3 i "valid" (Or.inr rfl) ⟨e, he⟩
    simp only [hi, if_true] at herr hval
    rw [hcls, hcls, herr, hval]
    simp
  · intro hno
    rw [hprev] at hno
    rw [hsl]
    simp only [hno, Bool.false_eq_true, if_false]
    exact ⟨h2, trivial⟩
  · intro hyes
    rw [hprev] at hyes
    obtain ⟨hc1, hc2, hc3⟩ := showFlash_thrown_congr (p := p)
      (q := ((numericInputs p).foldl submitStep (p, false)).1)
      "error" "Please fix validation errors before submitting" hsk hflag
    have hthrown : (submitListener p).thrown =
        (showFlash p "error" "Please fix validation errors before submitting").thrown := by
      rw [hsl]
      simp only [hyes, if_true]
      exact hc3
    have hfl : (submitListener p).page.flashes =
        (showFlash ((numericInputs p).foldl submitStep (p, false)).1 "error"
          "Please fix validation errors before submitting").page.flashes := by
      rw [hsl]
      simp only [hyes, if_true]
    refine ⟨?_, ?_⟩
    · rw [hthrown]
      exact showFlash_thrown_none_iff p _ _
    · rw [hfl, showFlash_flashes, hthrown, hc3, h2]

/-- Witness for C9: with field `x` holding `abc` and field `y` holding `7`, the
listener marks `x` as errored and goes on to mark `y` as valid, blocks the
submission, creates the flash container and shows the banner. -/
theorem submitListener_blocks_iff_witness :
    (submitListener submitPage).defaultPrevented = true ∧
    (submitListener submitPage).page.hasClass 2 "error" ∧
    (submitListener submitPage).page.hasClass 3 "valid" ∧
    ¬ (submitListener submitPage).page.hasClass 3 "error" ∧
    (submitListener submitPage).thrown = none ∧
    (submitListener submitPage).page.flashes =
      [⟨"error", "Please fix validation errors before submitting"⟩] :=
  have h := submitListener_blocks_iff submitPage
  have hprev : (submitListener submitPage).defaultPrevented = true :=
    h.1.mpr ⟨2, _, rfl, by decide, by decide⟩
  have hthrown : (submitListener submitPage).thrown = none :=
    ((h.2.2.2 hprev).1).mpr (Or.inr (by decide))
  ⟨hprev,
    ((h.2.1 2 _ rfl (by decide)).1).mpr (by decide),
    ((h.2.1 3 _ rfl (by decide)).2).mpr (by decide),
    fun hc => absurd (((h.2.1 3 _ rfl (by decide)).1).mp hc) (by decide),
    hthrown,
    by rw [(h.2.2.2 hprev).2, if_pos hthrown]; rfl⟩

/-- Counterexample for C9: on a page with neither a flash container nor a
`.container` element, a failing numeric field blocks the submission but no
flash message is shown: `showFlash` throws. -/
theorem submitListener_without_container :
    (submitListener barePage).defaultPrevented = true ∧
    (submitListener barePage).page.flashes = [] ∧
    (submitListener barePage).thrown = some nullInsertBeforeMessage := by
  decide

/-! ## `resetToDefaults` -/

theorem assignDefault_map {β : Type} (g : Element → β)
    (hg : ∀ (e : Element) (ch : Bool) (v : String) (os : List (String × Bool)) (t : String),
      g { e with checked := ch, value := v, options := os, textContent := t } = g e)
    (sanitize : Element → String → Except String String)
    (p p1 : Page) (i : Nat) (input : Element) (value : JSVal)
    (hok : assignDefault sanitize p i input value = .ok p1) :
    p1.elements.map g = p.elements.map g := by
  unfold assignDefault at hok
  split at hok
  · cases hok
    rw [updateToggleLabel_map g (fun e t => hg e e.checked e.value e.options t)]
    exact Page.map_modify g _ _ _ (fun e => hg e _ e.value e.options e.textContent)
  · split at hok
    · cases hok
      exact Page.map_modify g _ _ _ (fun e => hg e e.checked _ _ e.textContent)
    · split at hok
      · cases hok
        exact Page.map_modify g _ _ _ (fun e => hg e e.checked _ e.options e.textContent)
      · cases hok

theorem assignDefault_frame {β : Type} (g : Element → β)
    (hg : ∀ (e : Element) (t : String), g { e with textContent := t } = g e)
    (sanitize : Element → String → Except String String)
    (p p1 : Page) (i : Nat) (input : Element) (value : JSVal)
    (hok : assignDefault sanitize p i input value = .ok p1) (k : Nat) (hk : i ≠ k) :
    (p1.get? k).map g = (p.get? k).map g := by
  unfold assignDefault at hok
  split at hok
  · cases hok
    rw [Page.map_get? g (updateToggleLabel_map g hg _ _), Page.get?_modify]
    simp [hk]
  · split at hok
    · cases hok
      rw [Page.get?_modify]
      simp [hk]
    · split at hok
      · cases hok
        rw [Page.get?_modify]
        simp [hk]
      · cases hok

/-- The properties of the element a default is applied to. -/
theorem assignDefault_fields (sanitize : Element → String → Except String String)
    (p p1 : Page) (i : Nat) (input : Element) (value : JSVal)
    (hin : p.get? i = some input)
    (hok : assignDefault sanitize p i input value = .ok p1) :
    ∃ e, p1.get? i = some e ∧ e.tag = input.tag ∧ e.type = input.type ∧
      (input.type = "checkbox" →
        e.checked = value.truthy ∧ e.value = input.value ∧ e.options = input.options) ∧
      (input.type ≠ "checkbox" → input.tag = "select" →
        e.checked = input.checked ∧
        e.options = selectByValue input.options value.toJSString ∧
        e.value = selectedValue (selectByValue input.options value.toJSString)) ∧
      (input.type ≠ "checkbox" → input.tag ≠ "select" →
        e.checked = input.checked ∧ e.options = input.options ∧
        sanitize input value.toJSString = .ok e.value) := by
  unfold assignDefault at hok
  by_cases hty : input.type = "checkbox"
  · simp only [hty, if_true, Except.ok.injEq] at hok
    have h := Page.map_get? (fun e => (e.tag, e.type, e.checked, e.value, e.options))
      (updateToggleLabel_map (fun e => (e.tag, e.type, e.checked, e.value, e.options))
        (fun _ _ => rfl) (p.modify i (fun e => { e with checked := value.truthy })) i) i
    rw [hok, Page.get?_modify, hin] at h
    cases hq : p1.get? i with
    | none => simp [hq] at h
    | some e =>
      rw [hq] at h
      simp only [if_true, Option.map_some', Option.some.injEq, Prod.mk.injEq] at h
      exact ⟨e, rfl, h.1, h.2.1, fun _ => ⟨h.2.2.1, h.2.2.2.1, h.2.2.2.2⟩,
        fun hn => absurd hty hn, fun hn => absurd hty hn⟩
  · simp only [hty, if_false] at hok
    by_cases htag : input.tag = "select"
    · simp only [htag, if_true, Except.ok.injEq] at hok
      subst hok
      rw [Page.get?_modify, hin]
      exact ⟨{ input with
          options := selectByValue input.options value.toJSString,
          value := selectedValue (selectByValue input.options value.toJSString) },
        by simp, rfl, rfl, fun h => absurd h hty, fun _ _ => ⟨rfl, rfl, rfl⟩,
        fun _ hn => absurd htag hn⟩
    · simp only [htag, if_false] at hok
      cases hs : sanitize input value.toJSString with
      | error m => simp [hs] at hok
      | ok stored =>
        simp only [hs, Except.ok.injEq] at hok
        subst hok
        rw [Page.get?_modify, hin]
        exact ⟨{ input with value := stored }, by simp, rfl, rfl,
          fun h => absurd h hty, fun _ h => absurd h htag, fun _ _ => ⟨rfl, rfl, rfl⟩⟩

theorem clearValidation_map {β : Type} (g : Element → β)
    (hg : ∀ (e : Element) (cl : List String), g { e with classList := cl } = g e)
    (p : Page) (i : Nat) (field : String) :
    (clearValidation p i field).elements.map g = p.elements.map g := by
  unfold clearValidation
  split
  · rw [Page.map_modify g _ _ _ (fun e => hg e _)]
    exact Page.map_modify g _ _ _ (fun e => hg e _)
  · exact Page.map_modify g _ _ _ (fun e => hg e _)

theorem clearValidation_errorEl (p : Page) (i : Nat) (field : String) :
    getElementById
      (p.modify i (fun e => { e with classList := classRemove ["error", "valid"] e.classList }))
      ("error-" ++ field) = getElementById p ("error-" ++ field) := by
  apply getElementById_congr
  refine Page.map_modify Element.id _ _ _ ?_
  exact fun _ => rfl

theorem clearValidation_hasClass (p : Page) (i : Nat) (field : String) (k : Nat) (c : String) :
    (clearValidation p i field).hasClass k c ↔
      p.hasClass k c ∧ (k = i → c ≠ "error" ∧ c ≠ "valid") ∧
        (getElementById p ("error-" ++ field) = some k → c ≠ "visible") := by
  have hrem : ∀ (q : Page) (j : Nat) (ds : List String),
      (q.modify j (fun e => { e with classList := classRemove ds e.classList })).hasClass k c ↔
        q.hasClass k c ∧ (j = k → c ∉ ds) := by
    intro q j ds
    rw [Page.hasClass_modify]
    by_cases hj : j = k
    · simp only [hj, if_true, true_implies]
      unfold Page.hasClass
      simp only [mem_classRemove]
      constructor
      · rintro ⟨e, he, hc, hn⟩
        exact ⟨⟨e, he, hc⟩, hn⟩
      · rintro ⟨⟨e, he, hc⟩, hn⟩
        exact ⟨e, he, hc, hn⟩
    · simp [hj]
  unfold clearValidation
  rw [clearValidation_errorEl]
  cases hj : getElementById p ("error-" ++ field) with
  | none =>
    simp only [hrem]
    constructor
    · rintro ⟨h, hn⟩
      refine ⟨h, fun hk => ?_, fun hk => by simp at hk⟩
      have := hn hk.symm
      simpa using this
    · rintro ⟨h, hn, _⟩
      refine ⟨h, fun hk => ?_⟩
      have := hn hk.symm
      simpa using this
  | some j =>
    simp only [hrem, Option.some.injEq]
    constructor
    · rintro ⟨⟨h, hn⟩, hv⟩
      refine ⟨h, fun hk => ?_, fun hk => ?_⟩
      · have := hn hk.symm
        simpa using this
      · have := hv hk
        simpa using this
    · rintro ⟨h, hn, hv⟩
      refine ⟨⟨h, fun hk => ?_⟩, fun hk => ?_⟩
      · have := hn hk.symm
        simpa using this
      · have := hv hk
        simpa using this

theorem Page.hasClass_congr {p q : Page} {k : Nat}
    (h : (q.get? k).map Element.classList = (p.get? k).map Element.classList) (c : String) :
    q.hasClass k c ↔ p.hasClass k c := by
  unfold Page.hasClass
  cases hq : q.get? k with
  | none =>
    cases hp : p.get? k with
    | none => simp
    | some b => simp [hq, hp] at h
  | some a =>
    cases hp : p.get? k with
    | none => simp [hq, hp] at h
    | some b =>
      rw [hq, hp] at h
      simp only [Option.map_some', Option.some.injEq] at h
      simp [h]

theorem resetStep_none (sanitize : Element → String → Except String String)
    (p : Page) (fv : String × JSVal) (hi : getElementById p fv.1 = none) :
    resetStep sanitize p fv = ⟨p, none⟩ := by
  unfold resetStep
  rw [hi]

theorem resetStep_eq (sanitize : Element → String → Except String String)
    (p : Page) (fv : String × JSVal) (i : Nat) (input : Element)
    (hi : getElementById p fv.1 = some i) (hin : p.get? i = some input) :
    resetStep sanitize p fv =
      match assignDefault sanitize p i input fv.2 with
      | .ok p1 => ⟨clearValidation p1 i fv.1, none⟩
      | .error m => ⟨p, some m⟩ := by
  have hin2 : p.elements[i]? = some input := hin
  unfold resetStep
  simp only [hi, hin2]

/-- The shapes of one step of the loop: the page is left as it is (no element
for the key, or the setter throws), or the default is applied and the
validation state of the element cleared. -/
theorem resetStep_cases (sanitize : Element → String → Except String String)
    (p : Page) (fv : String × JSVal) :
    (resetStep sanitize p fv).page = p ∨
    ∃ i input p1, getElementById p fv.1 = some i ∧ p.get? i = some input ∧
      assignDefault sanitize p i input fv.2 = .ok p1 ∧
      resetStep sanitize p fv = ⟨clearValidation p1 i fv.1, none⟩ := by
  cases hi : getElementById p fv.1 with
  | none =>
    left
    rw [resetStep_none sanitize p fv hi]
  | some i =>
    obtain ⟨input, hin, _, _⟩ := getElementById_some hi
    have heq := resetStep_eq sanitize p fv i input hi hin
    cases ha : assignDefault sanitize p i input fv.2 with
    | error m =>
      left
      rw [heq, ha]
    | ok p1 =>
      right
      exact ⟨i, input, p1, rfl, hin, ha, by rw [heq, ha]⟩

theorem resetStep_thrown_cases (sanitize : Element → String → Except String String)
    (p : Page) (fv : String × JSVal) (i : Nat) (input : Element)
    (hi : getElementById p fv.1 = some i) (hin : p.get? i = some input)
    (hok : (resetStep sanitize p fv).thrown = none) :
    ∃ p1, assignDefault sanitize p i input fv.2 = .ok p1 ∧
      resetStep sanitize p fv = ⟨clearValidation p1 i fv.1, none⟩ := by
  have heq := resetStep_eq sanitize p fv i input hi hin
  cases ha : assignDefault sanitize p i input fv.2 with
  | error m =>
    rw [heq, ha] at hok
    simp at hok
  | ok p1 => exact ⟨p1, rfl, by rw [heq, ha]⟩

theorem resetStep_map {β : Type} (g : Element → β)
    (hg : ∀ (e : Element) (ch : Bool) (v : String) (os : List (String × Bool))
      (cl : List String) (t : String),
      g { e with checked := ch, value := v, options := os, classList := cl, textContent := t }
        = g e)
    (sanitize : Element → String → Except String String) (p : Page) (fv : String × JSVal) :
    (resetStep sanitize p fv).page.elements.map g = p.elements.map g := by
  rcases resetStep_cases sanitize p fv with h | ⟨i, input, p1, _, _, ha, heq⟩
  · rw [h]
  · rw [heq]
    show (clearValidation p1 i fv.1).elements.map g = _
    rw [clearValidation_map g (fun e cl => hg e e.checked e.value e.options cl e.textContent)]
    exact assignDefault_map g (fun e ch v os t => hg e ch v os e.classList t)
      sanitize p p1 i input fv.2 ha

theorem resetStep_ids (sanitize : Element → String → Except String String)
    (p : Page) (fv : String × JSVal) :
    (resetStep sanitize p fv).page.elements.map Element.id = p.elements.map Element.id :=
  resetStep_map Element.id (fun _ _ _ _ _ _ => rfl) sanitize p fv

/-- One step changes the class list of an element in one way only: it removes
`error` and `valid` from the element of the key and `visible` from the error
element of the key. -/
theorem resetStep_hasClass (sanitize : Element → String → Except String String)
    (p : Page) (fv : String × JSVal) (k : Nat) (c : String) :
    ((resetStep sanitize p fv).page.hasClass k c → p.hasClass k c) ∧
    (getElementById p fv.1 ≠ some k → getElementById p ("error-" ++ fv.1) ≠ some k →
      ((resetStep sanitize p fv).page.hasClass k c ↔ p.hasClass k c)) ∧
    ((resetStep sanitize p fv).thrown = none → getElementById p fv.1 = some k →
      (c = "error" ∨ c = "valid") → ¬ (resetStep sanitize p fv).page.hasClass k c) ∧
    ((resetStep sanitize p fv).thrown = none → (∃ i, getElementById p fv.1 = some i) →
      getElementById p ("error-" ++ fv.1) = some k → c = "visible" →
      ¬ (resetStep sanitize p fv).page.hasClass k c) := by
  rcases resetStep_cases sanitize p fv with h | ⟨i, input, p1, hi, hin, ha, heq⟩
  · rw [h]
    refine ⟨id, fun _ _ => Iff.rfl, ?_, ?_⟩
    · intro hok hk _
      obtain ⟨input, hin, _, _⟩ := getElementById_some hk
      obtain ⟨p1, _, heq⟩ := resetStep_thrown_cases sanitize p fv k input hk hin hok
      rw [← h, heq]
      show ¬ (clearValidation p1 k fv.1).hasClass k c
      rw [clearValidation_hasClass]
      rintro ⟨_, hn, _⟩
      rcases ‹c = "error" ∨ c = "valid"› with rfl | rfl
      · exact (hn rfl).1 rfl
      · exact (hn rfl).2 rfl
    · intro hok ⟨i, hi⟩ hk hc
      obtain ⟨input, hin, _, _⟩ := getElementById_some hi
      obtain ⟨p1, ha, heq⟩ := resetStep_thrown_cases sanitize p fv i input hi hin hok
      have hids := assignDefault_map Element.id (fun _ _ _ _ _ => rfl) sanitize p p1 i input fv.2 ha
      rw [← h, heq]
      show ¬ (clearValidation p1 i fv.1).hasClass k c
      rw [clearValidation_hasClass, getElementById_congr hids]
      rintro ⟨_, _, hv⟩
      exact hv hk hc
  · have hids := assignDefault_map Element.id (fun _ _ _ _ _ => rfl) sanitize p p1 i input fv.2 ha
    have hcls : ∀ k c, p1.hasClass k c ↔ p.hasClass k c := fun k c =>
      Page.hasClass_congr (Page.map_get? Element.classList
        (assignDefault_map Element.classList (fun _ _ _ _ _ => rfl) sanitize p p1 i input fv.2 ha) k) c
    rw [heq]
    show ((clearValidation p1 i fv.1).hasClass k c → _) ∧ (_ → _ →
      ((clearValidation p1 i fv.1).hasClass k c ↔ _)) ∧ (_ → _ → _ →
      ¬ (clearValidation p1 i fv.1).hasClass k c) ∧ (_ → _ → _ → _ →
      ¬ (clearValidation p1 i fv.1).hasClass k c)
    rw [clearValidation_hasClass, getElementById_congr hids, hcls, hi]
    refine ⟨fun h => h.1, ?_, ?_, ?_⟩
    · intro hk hke
      have hki : k ≠ i := fun h => hk (by rw [h])
      constructor
      · exact fun h => h.1
      · exact fun h => ⟨h, fun hh => absurd hh hki, fun hh => absurd hh hke⟩
    · intro _ hk hc
      simp only [Option.some.injEq] at hk
      rintro ⟨_, hn, _⟩
      rcases hc with rfl | rfl
      · exact (hn hk.symm).1 rfl
      · exact (hn hk.symm).2 rfl
    · intro _ _ hk hc
      rintro ⟨_, _, hv⟩
      exact hv hk hc

theorem resetStep_frame {β : Type} (g : Element → β)
    (hg : ∀ (e : Element) (cl : List String) (t : String),
      g { e with classList := cl, textContent := t } = g e)
    (sanitize : Element → String → Except String String) (p : Page) (fv : String × JSVal)
    (k : Nat) (hk : getElementById p fv.1 ≠ some k) :
    ((resetStep sanitize p fv).page.get? k).map g = (p.get? k).map g := by
  rcases resetStep_cases sanitize p fv with h | ⟨i, input, p1, hi, _, ha, heq⟩
  · rw [h]
  · have hik : i ≠ k := fun h => hk (by rw [hi, h])
    rw [heq]
    show ((clearValidation p1 i fv.1).get? k).map g = _
    rw [Page.map_get? g (clearValidation_map g (fun e cl => hg e cl e.textContent) p1 i fv.1)]
    exact assignDefault_frame g (fun e t => hg e e.classList t) sanitize p p1 i input fv.2 ha k hik

theorem resetStep_fields (sanitize : Element → String → Except String String)
    (p : Page) (fv : String × JSVal) (i : Nat) (input : Element)
    (hi : getElementById p fv.1 = some i) (hin : p.get? i = some input)
    (hok : (resetStep sanitize p fv).thrown = none) :
    ∃ e, (resetStep sanitize p fv).page.get? i = some e ∧ DefaultApplied sanitize input fv.2 e := by
  obtain ⟨p1, ha, heq⟩ := resetStep_thrown_cases sanitize p fv i input hi hin hok
  obtain ⟨e1, he1, _, _, h1, h2, h3⟩ := assignDefault_fields sanitize p p1 i input fv.2 hin ha
  have hm := Page.map_get? (fun e => (e.checked, e.value, e.options))
    (clearValidation_map (fun e => (e.checked, e.value, e.options)) (fun _ _ => rfl) p1 i fv.1) i
  rw [he1] at hm
  rw [heq]
  show ∃ e, (clearValidation p1 i fv.1).get? i = some e ∧ _
  cases hq : (clearValidation p1 i fv.1).get? i with
  | none => simp [hq] at hm
  | some e =>
    rw [hq] at hm
    simp only [Option.map_some', Option.some.injEq, Prod.mk.injEq] at hm
    refine ⟨e, rfl, ?_, ?_, ?_⟩
    · intro hty
      rw [hm.1]
      exact (h1 hty).1
    · intro hty htag
      rw [hm.2.2, hm.2.1]
      exact ⟨(h2 hty htag).2.1, (h2 hty htag).2.2⟩
    · intro hty htag
      rw [hm.2.1]
      exact (h3 hty htag).2.2

theorem resetLoop_cons (sanitize : Element → String → Except String String)
    (fv : String × JSVal) (rest : List (String × JSVal)) (p : Page) :
    resetLoop sanitize (fv :: rest) p =
      match (resetStep sanitize p fv).thrown with
      | none => resetLoop sanitize rest (resetStep sanitize p fv).page
      | some m => ⟨(resetStep sanitize p fv).page, some m⟩ := rfl

theorem resetLoop_cons_none (sanitize : Element → String → Except String String)
    (fv : String × JSVal) (rest : List (String × JSVal)) (p : Page)
    (hok : (resetLoop sanitize (fv :: rest) p).thrown = none) :
    (resetStep sanitize p fv).thrown = none ∧
    resetLoop sanitize (fv :: rest) p = resetLoop sanitize rest (resetStep sanitize p fv).page := by
  rw [resetLoop_cons] at hok ⊢
  cases h : (resetStep sanitize p fv).thrown with
  | none => exact ⟨rfl, rfl⟩
  | some m => simp [h] at hok

/-- The loop as a whole either runs through the list or stops at a step that
throws; in both cases its page is reached by steps of the loop. -/
theorem resetLoop_induction (sanitize : Element → String → Except String String)
    (R : Page → Page → Prop) (hrefl : ∀ p, R p p)
    (hstep : ∀ p q fv, R p q → R p (resetStep sanitize q fv).page) :
    ∀ (l : List (String × JSVal)) (p q : Page), R p q → R p (resetLoop sanitize l q).page
  | [], _, _, h => h
  | fv :: rest, p, q, h => by
    rw [resetLoop_cons]
    cases hs : (resetStep sanitize q fv).thrown with
    | none => exact resetLoop_induction sanitize R hrefl hstep rest p _ (hstep p q fv h)
    | some m => exact hstep p q fv h

theorem resetLoop_map {β : Type} (g : Element → β)
    (hg : ∀ (e : Element) (ch : Bool) (v : String) (os : List (String × Bool))
      (cl : List String) (t : String),
      g { e with checked := ch, value := v, options := os, classList := cl, textContent := t }
        = g e)
    (sanitize : Element → String → Except String String) (l : List (String × JSVal)) (p : Page) :
    (resetLoop sanitize l p).page.elements.map g = p.elements.map g :=
  resetLoop_induction sanitize (fun p q => q.elements.map g = p.elements.map g)
    (fun _ => rfl) (fun _ q fv h => (resetStep_map g hg sanitize q fv).trans h) l p p rfl

theorem resetLoop_hasClass_mono (sanitize : Element → String → Except String String)
    (k : Nat) (c : String) (l : List (String × JSVal)) (p : Page) :
    (resetLoop sanitize l p).page.hasClass k c → p.hasClass k c :=
  resetLoop_induction sanitize (fun p q => q.hasClass k c → p.hasClass k c)
    (fun _ => id) (fun _ q fv h hq => h ((resetStep_hasClass sanitize q fv k c).1 hq)) l p p id

theorem resetStep_getElementById (sanitize : Element → String → Except String String)
    (p : Page) (fv : String × JSVal) (s : String) :
    getElementById (resetStep sanitize p fv).page s = getElementById p s :=
  getElementById_congr (resetStep_ids sanitize p fv) s

theorem resetLoop_getElementById (sanitize : Element → String → Except String String)
    (l : List (String × JSVal)) (p : Page) (s : String) :
    getElementById (resetLoop sanitize l p).page s = getElementById p s :=
  getElementById_congr (resetLoop_map Element.id (fun _ _ _ _ _ _ => rfl) sanitize l p) s

/-- The loop leaves the class list of an element alone when no key of the
defaults names it or its error element. -/
theorem resetLoop_hasClass_frame (sanitize : Element → String → Except String String)
    (k : Nat) (c : String) :
    ∀ (l : List (String × JSVal)) (p : Page),
      (∀ fv ∈ l, getElementById p fv.1 ≠ some k ∧ getElementById p ("error-" ++ fv.1) ≠ some k) →
      ((resetLoop sanitize l p).page.hasClass k c ↔ p.hasClass k c)
  | [], _, _ => Iff.rfl
  | fv :: rest, p, h => by
    have hfv := h fv (List.mem_cons_self _ _)
    have hstep := (resetStep_hasClass sanitize p fv k c).2.1 hfv.1 hfv.2
    rw [resetLoop_cons]
    cases hs : (resetStep sanitize p fv).thrown with
    | some m => exact hstep
    | none =>
      refine Iff.trans (resetLoop_hasClass_frame sanitize k c rest _ ?_) hstep
      intro fv2 h2
      rw [resetStep_getElementById, resetStep_getElementById]
      exact h fv2 (List.mem_cons_of_mem _ h2)

/-- A loop that runs to its end leaves the element of each key without `error`
and `valid`, and the error element of each key that names an element without
`visible`. -/
theorem resetLoop_clears (sanitize : Element → String → Except String String)
    (k : Nat) (c : String) :
    ∀ (l : List (String × JSVal)) (p : Page),
      (resetLoop sanitize l p).thrown = none →
      ∀ fv ∈ l,
        (getElementById p fv.1 = some k → (c = "error" ∨ c = "valid") →
          ¬ (resetLoop sanitize l p).page.hasClass k c) ∧
        ((∃ i, getElementById p fv.1 = some i) →
          getElementById p ("error-" ++ fv.1) = some k → c = "visible" →
          ¬ (resetLoop sanitize l p).page.hasClass k c)
  | [], _, _, _, h => by simp at h
  | a :: rest, p, hok, fv, hmem => by
    obtain ⟨hs, heq⟩ := resetLoop_cons_none sanitize a rest p hok
    rw [heq] at hok ⊢
    rcases List.mem_cons.1 hmem with rfl | hin
    · have hstep := resetStep_hasClass sanitize p fv k c
      refine ⟨fun hk hc hcl => ?_, fun hi hk hc hcl => ?_⟩
      · exact hstep.2.2.1 hs hk hc (resetLoop_hasClass_mono sanitize k c rest _ hcl)
      · exact hstep.2.2.2 hs hi hk hc (resetLoop_hasClass_mono sanitize k c rest _ hcl)
    · have ih := resetLoop_clears sanitize k c rest _ hok fv hin
      simp only [resetStep_getElementById] at ih
      exact ih

/-- The loop leaves everything but class list and text content alone on an
element that no key of the defaults names. -/
theorem resetLoop_frame {β : Type} (g : Element → β)
    (hg : ∀ (e : Element) (cl : List String) (t : String),
      g { e with classList := cl, textContent := t } = g e)
    (sanitize : Element → String → Except String String) (k : Nat) :
    ∀ (l : List (String × JSVal)) (p : Page),
      (∀ fv ∈ l, getElementById p fv.1 ≠ some k) →
      ((resetLoop sanitize l p).page.get? k).map g = (p.get? k).map g
  | [], _, _ => rfl
  | fv :: rest, p, h => by
    have hstep := resetStep_frame g hg sanitize p fv k (h fv (List.mem_cons_self _ _))
    rw [resetLoop_cons]
    cases hs : (resetStep sanitize p fv).thrown with
    | some m => exact hstep
    | none =>
      refine Eq.trans (resetLoop_frame g hg sanitize k rest _ ?_) hstep
      intro fv2 h2
      rw [resetStep_getElementById]
      exact h fv2 (List.mem_cons_of_mem _ h2)

theorem Element.core_eq {a b : Element} (h : a.core = b.core) :
    a = { b with classList := a.classList, textContent := a.textContent } := by
  cases a
  cases b
  simp only [Element.core, Element.mk.injEq] at h ⊢
  simp [h]

theorem DefaultApplied_congr (sanitize : Element → String → Except String String)
    (hsan : ∀ (e : Element) (cl : List String) (t s : String),
      sanitize { e with classList := cl, textContent := t } s = sanitize e s)
    {input input2 e e2 : Element} (value : JSVal)
    (hi : input2.core = input.core) (he : e2.core = e.core)
    (h : DefaultApplied sanitize input2 value e2) : DefaultApplied sanitize input value e := by
  have hi2 := Element.core_eq hi
  have he2 := Element.core_eq he
  have hty : input2.type = input.type :=
    show (Element.core _).type = (Element.core _).type from congrArg Element.type hi
  have htag : input2.tag = input.tag :=
    show (Element.core _).tag = (Element.core _).tag from congrArg Element.tag hi
  have hop : input2.options = input.options :=
    show (Element.core _).options = (Element.core _).options from congrArg Element.options hi
  have hch : e2.checked = e.checked :=
    show (Element.core _).checked = (Element.core _).checked from congrArg Element.checked he
  have hv : e2.value = e.value :=
    show (Element.core _).value = (Element.core _).value from congrArg Element.value he
  have heo : e2.options = e.options :=
    show (Element.core _).options = (Element.core _).options from congrArg Element.options he
  have hs : ∀ s, sanitize input2 s = sanitize input s := by
    intro s
    rw [hi2]
    exact hsan input _ _ s
  obtain ⟨h1, h2, h3⟩ := h
  rw [hty, hch] at h1
  rw [hty, htag, hop, heo, hv] at h2
  rw [hty, htag, hs, hv] at h3
  exact ⟨h1, h2, h3⟩

theorem getElementById_inj {p : Page} {s t : String} {i : Nat}
    (hs : getElementById p s = some i) (ht : getElementById p t = some i) : s = t := by
  obtain ⟨e, he, hes, _⟩ := getElementById_some hs
  obtain ⟨e2, he2, het, _⟩ := getElementById_some ht
  rw [he] at he2
  cases he2
  rw [← hes, ← het]

/-- A loop that runs to its end over defaults with distinct keys leaves each
named element as its default makes it. -/
theorem resetLoop_fields (sanitize : Element → String → Except String String)
    (hsan : ∀ (e : Element) (cl : List String) (t s : String),
      sanitize { e with classList := cl, textContent := t } s = sanitize e s) :
    ∀ (l : List (String × JSVal)) (p : Page),
      (resetLoop sanitize l p).thrown = none → (l.map Prod.fst).Nodup →
      ∀ fv ∈ l, ∀ (i : Nat) (input : Element),
        getElementById p fv.1 = some i → p.get? i = some input →
        ∃ e, (resetLoop sanitize l p).page.get? i = some e ∧
          DefaultApplied sanitize input fv.2 e
  | [], _, _, _, _, h => by simp at h
  | a :: rest, p, hok, hnd, fv, hmem => by
    intro i input hi hin
    obtain ⟨hs, heq⟩ := resetLoop_cons_none sanitize a rest p hok
    rw [heq] at hok ⊢
    simp only [List.map_cons, List.nodup_cons] at hnd
    rcases List.mem_cons.1 hmem with rfl | hrest
    · obtain ⟨e1, he1, hd1⟩ := resetStep_fields sanitize p fv i input hi hin hs
      have hfr := resetLoop_frame Element.core (fun _ _ _ => rfl) sanitize i rest
        (resetStep sanitize p fv).page (by
          intro fv2 h2 hc
          rw [resetStep_getElementById] at hc
          have := getElementById_inj hc hi
          exact hnd.1 (this ▸ List.mem_map_of_mem Prod.fst h2))
      rw [he1] at hfr
      obtain ⟨e, he, hce⟩ := Option.map_eq_some'.1 hfr
      exact ⟨e, he, DefaultApplied_congr sanitize hsan fv.2 rfl hce.symm hd1⟩
    · have hne : getElementById p a.1 ≠ some i := by
        intro hc
        have := getElementById_inj hc hi
        exact hnd.1 (this ▸ List.mem_map_of_mem Prod.fst hrest)
      have hfr := resetStep_frame Element.core (fun _ _ _ => rfl) sanitize p a i hne
      rw [hin] at hfr
      obtain ⟨input2, hin2, hc2⟩ := Option.map_eq_some'.1 hfr
      obtain ⟨e, he, hd⟩ := resetLoop_fields sanitize hsan rest _ hok hnd.2 fv hrest i input2
        (by rw [resetStep_getElementById]; exact hi) hin2
      exact ⟨e, he, DefaultApplied_congr sanitize hsan fv.2 hc2 rfl hd⟩

theorem updateToggleLabel_rest (p : Page) (c : Nat) :
    (updateToggleLabel p c).flashContainer = p.flashContainer ∧
    (updateToggleLabel p c).flashes = p.flashes := by
  unfold updateToggleLabel
  split
  · exact ⟨rfl, rfl⟩
  · split
    · exact ⟨rfl, rfl⟩
    · exact ⟨rfl, rfl⟩

theorem assignDefault_rest (sanitize : Element → String → Except String String)
    (p p1 : Page) (i : Nat) (input : Element) (value : JSVal)
    (hok : assignDefault sanitize p i input value = .ok p1) :
    p1.flashContainer = p.flashContainer ∧ p1.flashes = p.flashes := by
  unfold assignDefault at hok
  split at hok
  · cases hok
    exact updateToggleLabel_rest _ _
  · split at hok
    · cases hok
      exact ⟨rfl, rfl⟩
    · split at hok
      · cases hok
        exact ⟨rfl, rfl⟩
      · cases hok

theorem clearValidation_rest (p : Page) (i : Nat) (field : String) :
    (clearValidation p i field).flashContainer = p.flashContainer ∧
    (clearValidation p i field).flashes = p.flashes := by
  unfold clearValidation
  split
  · exact ⟨rfl, rfl⟩
  · exact ⟨rfl, rfl⟩

theorem clearValidation_skeleton (p : Page) (i : Nat) (field : String) :
    (clearValidation p i field).elements.map
        (fun e => (e.tag, e.depth, decide ("container" ∈ e.classList),
          decide ("flash-messages" ∈ e.classList))) =
      p.elements.map
        (fun e => (e.tag, e.depth, decide ("container" ∈ e.classList),
          decide ("flash-messages" ∈ e.classList))) := by
  unfold clearValidation
  split
  · rw [Page.map_modify _ _ _ _ (by intro e; simp [mem_classRemove])]
    exact Page.map_modify _ _ _ _ (by intro e; simp [mem_classRemove])
  · exact Page.map_modify _ _ _ _ (by intro e; simp [mem_classRemove])

/-- One step keeps what `showFlash` looks at, and the banners. -/
theorem resetStep_skeleton (sanitize : Element → String → Except String String)
    (p : Page) (fv : String × JSVal) :
    (resetStep sanitize p fv).page.elements.map
        (fun e => (e.tag, e.depth, decide ("container" ∈ e.classList),
          decide ("flash-messages" ∈ e.classList))) =
      p.elements.map
        (fun e => (e.tag, e.depth, decide ("container" ∈ e.classList),
          decide ("flash-messages" ∈ e.classList))) ∧
    (resetStep sanitize p fv).page.flashContainer = p.flashContainer ∧
    (resetStep sanitize p fv).page.flashes = p.flashes := by
  rcases resetStep_cases sanitize p fv with h | ⟨i, input, p1, _, _, ha, heq⟩
  · rw [h]
    exact ⟨rfl, rfl, rfl⟩
  · rw [heq]
    have hr := assignDefault_rest sanitize p p1 i input fv.2 ha
    have hc := clearValidation_rest p1 i fv.1
    refine ⟨?_, hc.1.trans hr.1, hc.2.trans hr.2⟩
    show (clearValidation p1 i fv.1).elements.map _ = _
    rw [clearValidation_skeleton]
    refine assignDefault_map (fun e => (e.tag, e.depth, decide ("container" ∈ e.classList),
      decide ("flash-messages" ∈ e.classList))) ?_ sanitize p p1 i input fv.2 ha
    exact fun _ _ _ _ _ => rfl

theorem resetLoop_skeleton (sanitize : Element → String → Except String String)
    (l : List (String × JSVal)) (p : Page) :
    (resetLoop sanitize l p).page.elements.map
        (fun e => (e.tag, e.depth, decide ("container" ∈ e.classList),
          decide ("flash-messages" ∈ e.classList))) =
      p.elements.map
        (fun e => (e.tag, e.depth, decide ("container" ∈ e.classList),
          decide ("flash-messages" ∈ e.classList))) ∧
    (resetLoop sanitize l p).page.flashContainer = p.flashContainer ∧
    (resetLoop sanitize l p).page.flashes = p.flashes :=
  resetLoop_induction sanitize
    (fun p q =>
      q.elements.map
          (fun e => (e.tag, e.depth, decide ("container" ∈ e.classList),
            decide ("flash-messages" ∈ e.classList))) =
        p.elements.map
          (fun e => (e.tag, e.depth, decide ("container" ∈ e.classList),
            decide ("flash-messages" ∈ e.classList))) ∧
      q.flashContainer = p.flashContainer ∧ q.flashes = p.flashes)
    (fun _ => ⟨rfl, rfl, rfl⟩)
    (fun _ q fv h =>
      ⟨(resetStep_skeleton sanitize q fv).1.trans h.1,
       (resetStep_skeleton sanitize q fv).2.1.trans h.2.1,
       (resetStep_skeleton sanitize q fv).2.2.trans h.2.2⟩) l p p ⟨rfl, rfl, rfl⟩

/-- The loop runs to its end when the value setter accepts every default it is
given; the keys are distinct. -/
theorem resetLoop_thrown_none (sanitize : Element → String → Except String String)
    (hsan : ∀ (e : Element) (cl : List String) (t s : String),
      sanitize { e with classList := cl, textContent := t } s = sanitize e s) :
    ∀ (l : List (String × JSVal)) (p : Page),
      (l.map Prod.fst).Nodup →
      (∀ fv ∈ l, ∀ (i : Nat) (input : Element),
        getElementById p fv.1 = some i → p.get? i = some input →
        input.type ≠ "checkbox" → input.tag ≠ "select" →
        ∃ stored, sanitize input fv.2.toJSString = .ok stored) →
      (resetLoop sanitize l p).thrown = none
  | [], _, _, _ => rfl
  | a :: rest, p, hnd, h => by
    simp only [List.map_cons, List.nodup_cons] at hnd
    have hs : (resetStep sanitize p a).thrown = none := by
      rcases resetStep_cases sanitize p a with hc | ⟨i, input, p1, _, _, _, heq⟩
      · cases hi : getElementById p a.1 with
        | none => rw [resetStep_none sanitize p a hi]
        | some i =>
          cases hin : p.get? i with
          | none =>
            obtain ⟨e, he, _⟩ := getElementById_some hi
            rw [hin] at he
            cases he
          | some input =>
            rw [resetStep_eq sanitize p a i input hi hin]
            unfold assignDefault
            by_cases hty : input.type = "checkbox"
            · simp [hty]
            · by_cases htag : input.tag = "select"
              · simp [hty, htag]
              · obtain ⟨stored, hst⟩ := h a (List.mem_cons_self _ _) i input hi hin hty htag
                simp [hty, htag, hst]
      · rw [heq]
    rw [resetLoop_cons, hs]
    apply resetLoop_thrown_none sanitize hsan rest _ hnd.2
    intro fv hfv i input2 hi hin2 hty htag
    rw [resetStep_getElementById] at hi
    have hne : getElementById p a.1 ≠ some i := by
      intro hc
      have := getElementById_inj hc hi
      exact hnd.1 (this ▸ List.mem_map_of_mem Prod.fst hfv)
    have hfr := resetStep_frame Element.core (fun _ _ _ => rfl) sanitize p a i hne
    rw [hin2] at hfr
    obtain ⟨input, hin, hc⟩ := Option.map_eq_some'.1 hfr.symm
    have hty2 : input.type = input2.type :=
      show (Element.core _).type = (Element.core _).type from congrArg Element.type hc
    have htag2 : input.tag = input2.tag :=
      show (Element.core _).tag = (Element.core _).tag from congrArg Element.tag hc
    obtain ⟨stored, hst⟩ := h fv (List.mem_cons_of_mem _ hfv) i input hi hin
      (hty2 ▸ hty) (htag2 ▸ htag)
    refine ⟨stored, ?_⟩
    rw [Element.core_eq hc.symm, hsan]
    exact hst

/-! ## `displayValidationResults` -/

theorem join_append (l₁ l₂ : List String) :
    String.join (l₁ ++ l₂) = String.join l₁ ++ String.join l₂ := by
  apply String.ext
  simp [String.data_join]

theorem foldl_append_eq_join {α : Type} (k : α → String) :
    ∀ (l : List α) (init : String),
      l.foldl (fun html e => html ++ k e) init = init ++ String.join (l.map k)
  | [], init => by
    apply String.ext
    simp [String.data_join]
  | a :: t, init => by
    rw [List.foldl_cons, foldl_append_eq_join k t]
    apply String.ext
    simp [String.data_join]

theorem errorItem_of_field (field : String) (h1 : field ≠ "_mutex") (h2 : field ≠ "_general") :
    errorItem field =
      fun err => "<li style=\"color: #991b1b;\"><strong>" ++ field ++ ":</strong> " ++ err ++ "</li>" := by
  funext err
  simp [errorItem, h1, h2]

theorem errorStep_snd (acc : Page × String) (fe : String × List String) :
    (errorStep acc fe).2 = acc.2 ++ String.join (fe.2.map (errorItem fe.1)) := by
  unfold errorStep
  by_cases h1 : fe.1 = "_mutex"
  · simp only [h1, if_true, foldl_append_eq_join]
    rfl
  · by_cases h2 : fe.1 = "_general"
    · simp only [h2, if_true, foldl_append_eq_join]
      rfl
    · rw [errorItem_of_field fe.1 h1 h2]
      simp only [h1, h2, if_false, foldl_append_eq_join]

theorem errorFold_snd :
    ∀ (errors : List (String × List String)) (acc : Page × String),
      (errors.foldl errorStep acc).2 =
        acc.2 ++ String.join (errors.flatMap (fun fe => fe.2.map (errorItem fe.1)))
  | [], acc => by
    apply String.ext
    simp [String.data_join]
  | fe :: t, acc => by
    rw [List.foldl_cons, errorFold_snd t, errorStep_snd, List.flatMap_cons, join_append,
      String.append_assoc]

theorem errorStep_map {β : Type} (g : Element → β)
    (hg : ∀ (e : Element) (cl : List String), g { e with classList := cl } = g e)
    (acc : Page × String) (fe : String × List String) :
    (errorStep acc fe).1.elements.map g = acc.1.elements.map g := by
  unfold errorStep
  split
  · rfl
  · split
    · rfl
    · simp only
      split
      · refine Page.map_modify g _ _ _ ?_
        exact fun e => hg e _
      · rfl

theorem errorFold_map {β : Type} (g : Element → β)
    (hg : ∀ (e : Element) (cl : List String), g { e with classList := cl } = g e) :
    ∀ (errors : List (String × List String)) (acc : Page × String),
      (errors.foldl errorStep acc).1.elements.map g = acc.1.elements.map g
  | [], _ => rfl
  | fe :: t, acc => by
    rw [List.foldl_cons, errorFold_map g hg t, errorStep_map g hg]

/-- The class lists after the loop over the errors: a class is carried when
it was carried before, or it is `error` and the element is the target of a
key other than `_mutex` and `_general`. -/
theorem errorFold_hasClass (p : Page) (i : Nat) (c : String) :
    ∀ (errors : List (String × List String)) (acc : Page × String),
      acc.1.elements.map Element.id = p.elements.map Element.id →
      ((errors.foldl errorStep acc).1.hasClass i c ↔
        acc.1.hasClass i c ∨
          (c = "error" ∧ ∃ fe ∈ errors, fe.1 ≠ "_mutex" ∧ fe.1 ≠ "_general" ∧
            getElementById p fe.1 = some i))
  | [], acc, _ => by simp
  | fe :: t, acc, hids => by
    have hids1 : (errorStep acc fe).1.elements.map Element.id = p.elements.map Element.id := by
      rw [errorStep_map Element.id (fun _ _ => rfl)]
      exact hids
    rw [List.foldl_cons, errorFold_hasClass p i c t _ hids1]
    have hstep : (errorStep acc fe).1.hasClass i c ↔
        acc.1.hasClass i c ∨
          (c = "error" ∧ fe.1 ≠ "_mutex" ∧ fe.1 ≠ "_general" ∧
            getElementById p fe.1 = some i) := by
      unfold errorStep
      by_cases h1 : fe.1 = "_mutex"
      · simp [h1]
      · by_cases h2 : fe.1 = "_general"
        · simp [h2]
        · simp only [h1, h2, if_false, ne_eq, not_false_eq_true, true_and]
          rw [getElementById_congr hids]
          cases hk : getElementById p fe.1 with
          | none => simp
          | some k =>
            simp only [Option.some.injEq]
            rw [Page.hasClass_modify]
            by_cases hki : k = i
            · subst hki
              simp only [if_true, and_true]
              have hk' : getElementById acc.1 fe.1 = some k := by
                rw [getElementById_congr hids]; exact hk
              obtain ⟨e, he, _, _⟩ := getElementById_some hk'
              unfold Page.hasClass
              simp only [he, Option.some.injEq, exists_eq_left', mem_classAdd]
              tauto
            · simp [hki]
    rw [hstep]
    simp only [List.mem_cons, exists_eq_or_imp]
    tauto

theorem clearFold_map {β : Type} (g : Element → β)
    (hg : ∀ (e : Element) (cl : List String), g { e with classList := cl } = g e)
    (ds : List String) :
    ∀ (idxs : List Nat) (p : Page),
      (idxs.foldl (fun q i =>
        q.modify i (fun e => { e with classList := classRemove ds e.classList })) p).elements.map g
        = p.elements.map g
  | [], _ => rfl
  | k :: t, p => by
    rw [List.foldl_cons, clearFold_map g hg ds t]
    refine Page.map_modify g _ _ _ ?_
    exact fun e => hg e _

theorem clearFold_hasClass (ds : List String) (j : Nat) (c : String) :
    ∀ (idxs : List Nat) (p : Page),
      (idxs.foldl (fun q i =>
        q.modify i (fun e => { e with classList := classRemove ds e.classList })) p).hasClass j c ↔
        p.hasClass j c ∧ (j ∈ idxs → c ∉ ds)
  | [], p => by simp
  | k :: t, p => by
    rw [List.foldl_cons, clearFold_hasClass ds j c t, Page.hasClass_modify]
    by_cases hk : k = j
    · subst hk
      unfold Page.hasClass
      simp only [if_true, mem_classRemove, List.mem_cons, true_or, true_implies]
      constructor
      · rintro ⟨⟨e, he, hc, hn⟩, _⟩
        exact ⟨⟨e, he, hc⟩, hn⟩
      · rintro ⟨⟨e, he, hc⟩, hn⟩
        exact ⟨⟨e, he, hc, hn⟩, fun _ => hn⟩
    · have : j ≠ k := fun h => hk h.symm
      simp [hk, this]

theorem hasAncestorOfClass_modify (p : Page) (s : Nat) (f : Element → Element) (cls : String)
    (hdepth : ∀ e, (f e).depth = e.depth)
    (hcls : ∀ e, cls ∈ (f e).classList ↔ cls ∈ e.classList) (i : Nat) :
    hasAncestorOfClass (p.modify s f).elements cls i = hasAncestorOfClass p.elements cls i := by
  unfold hasAncestorOfClass
  rw [Page.map_modify Element.depth p s f hdepth]
  congr 1
  funext j
  have hget := Page.get?_modify p s f j
  unfold Page.get? at hget
  rw [hget]
  by_cases hsj : s = j
  · simp only [hsj, if_true]
    cases p.elements[j]? with
    | none => rfl
    | some a => simp [hcls]
  · simp [hsj]

theorem formGroupControls_modify (p : Page) (s : Nat) (f : Element → Element)
    (htag : ∀ e, (f e).tag = e.tag) (hdepth : ∀ e, (f e).depth = e.depth)
    (hcls : ∀ e, "form-group" ∈ (f e).classList ↔ "form-group" ∈ e.classList) :
    formGroupControls (p.modify s f) = formGroupControls p := by
  unfold formGroupControls
  have hlen : (p.modify s f).elements.length = p.elements.length := by
    simp [Page.modify]
  rw [hlen]
  apply List.filter_congr
  intro i _
  rw [hasAncestorOfClass_modify p s f "form-group" hdepth hcls]
  have hget := Page.get?_modify p s f i
  unfold Page.get? at hget
  rw [hget]
  by_cases hsi : s = i
  · simp only [hsi, if_true]
    cases p.elements[i]? with
    | none => rfl
    | some a => simp [htag]
  · simp [hsi]

/-- The end of `displayValidationResults` for an invalid result, from the page
`q` reached when the markings are cleared: the markup written into the content
panel and the class lists of the page left. -/
theorem display_tail (p q : Page) (errors : List (String × List String)) (s c : Nat)
    (ce : Element) (hids : q.elements.map Element.id = p.elements.map Element.id)
    (hce : p.get? c = some ce) :
    ((Page.get?
        { ((errors.foldl errorStep (q, "<ul>")).1.modify c
            (fun e => { e with innerHTML := (errors.foldl errorStep (q, "<ul>")).2 ++ "</ul>" }))
          with scrolledTo := some s } c).map Element.innerHTML =
      some ("<ul>" ++ String.join (errors.flatMap (fun fe => fe.2.map (errorItem fe.1))) ++
        "</ul>")) ∧
    ∀ (i : Nat) (cl : String),
      Page.hasClass
        { ((errors.foldl errorStep (q, "<ul>")).1.modify c
            (fun e => { e with innerHTML := (errors.foldl errorStep (q, "<ul>")).2 ++ "</ul>" }))
          with scrolledTo := some s } i cl ↔
        q.hasClass i cl ∨
          (cl = "error" ∧ ∃ fe ∈ errors, fe.1 ≠ "_mutex" ∧ fe.1 ≠ "_general" ∧
            getElementById p fe.1 = some i) := by
  constructor
  · show ((Page.modify _ c _).get? c).map Element.innerHTML = _
    rw [Page.get?_modify]
    simp only [if_true]
    have hex := Page.map_get? Element.id
      ((errorFold_map Element.id (fun _ _ => rfl) errors (q, "<ul>")).trans hids) c
    rw [hce] at hex
    cases hq : (errors.foldl errorStep (q, "<ul>")).1.get? c with
    | none => simp [hq] at hex
    | some e =>
      simp only [Option.map_some', Option.some.injEq]
      rw [errorFold_snd]
  · intro i cl
    rw [← errorFold_hasClass p i cl errors (q, "<ul>") hids]
    exact Page.hasClass_modify_keep _ c _ i cl (fun _ => Iff.rfl)

/-- The outcome of `displayValidationResults` for an invalid result on a page
that has the summary and content panels: nothing is thrown, and the page left
is the one the loop over the errors builds from a page `q` on which no
form-group input or select carries `error` or `valid`. -/
theorem display_invalid_outcome (p : Page) (result : ValidationResult) (s c : Nat)
    (hvalid : result.valid = false)
    (hs : getElementById p "validation-summary" = some s)
    (hc : getElementById p "validation-content" = some c) :
    ∃ q : Page, q.elements.map Element.id = p.elements.map Element.id ∧
      (∀ i ∈ formGroupControls p, ¬ q.hasClass i "error" ∧ ¬ q.hasClass i "valid") ∧
      displayValidationResults p result =
        ⟨{ ((result.errors.foldl errorStep (q, "<ul>")).1.modify c
            (fun e => { e with innerHTML :=
              (result.errors.foldl errorStep (q, "<ul>")).2 ++ "</ul>" }))
          with scrolledTo := some s }, none⟩ := by
  have hfg : formGroupControls (p.modify s (fun e =>
      { e with display := "block",
               classList := classAdd "error"
                 (classRemove ["success", "error"] e.classList) })) = formGroupControls p := by
    apply formGroupControls_modify
    · exact fun _ => rfl
    · exact fun _ => rfl
    · intro e
      simp [mem_classAdd, mem_classRemove]
  refine ⟨(formGroupControls p).foldl
      (fun q i => q.modify i
        (fun e => { e with classList := classRemove ["error", "valid"] e.classList }))
      (p.modify s (fun e =>
        { e with display := "block",
                 classList := classAdd "error"
                   (classRemove ["success", "error"] e.classList) })), ?_, ?_, ?_⟩
  · rw [clearFold_map Element.id (fun _ _ => rfl)]
    refine Page.map_modify Element.id _ _ _ ?_
    exact fun _ => rfl
  · intro i hi
    constructor
    · rw [clearFold_hasClass]
      rintro ⟨_, h⟩
      exact absurd (h hi) (by simp)
    · rw [clearFold_hasClass]
      rintro ⟨_, h⟩
      exact absurd (h hi) (by simp)
  · unfold displayValidationResults
    simp only [hs, hc, hvalid, Bool.false_eq_true, if_false]
    rw [hfg]

/-- C6 (as amended): for a result with `valid = false`, on a page that has the
summary and content panels, `displayValidationResults` throws nothing, clears
the `error` and `valid` markings of every form-group input and select, writes
into the content panel a list with one item per message of `result.errors`, in
the order of the keys and of the messages of each key (the bare message behind
a warning sign for `_mutex` and `_general`, the message behind the field name
in bold for any other key), and marks as errored the element of every key
other than `_mutex` and `_general` that has one. -/
theorem displayValidationResults_errors (p : Page) (result : ValidationResult) (s c : Nat)
    (hvalid : result.valid = false)
    (hs : getElementById p "validation-summary" = some s)
    (hc : getElementById p "validation-content" = some c) :
    (displayValidationResults p result).thrown = none ∧
    (((displayValidationResults p result).page.get? c).map Element.innerHTML =
      some ("<ul>" ++
        String.join (result.errors.flatMap (fun fe => fe.2.map (fun err =>
          if fe.1 = "_mutex" ∨ fe.1 = "_general" then
            "<li style=\"color: #991b1b;\">⚠ " ++ err ++ "</li>"
          else
            "<li style=\"color: #991b1b;\"><strong>" ++ fe.1 ++ ":</strong> " ++ err ++ "</li>")))
        ++ "</ul>")) ∧
    (∀ fe ∈ result.errors, fe.1 ≠ "_mutex" → fe.1 ≠ "_general" →
      ∀ i, getElementById p fe.1 = some i →
        (displayValidationResults p result).page.hasClass i "error") ∧
    (∀ i ∈ formGroupControls p,
      ¬ (displayValidationResults p result).page.hasClass i "valid" ∧
      ((displayValidationResults p result).page.hasClass i "error" →
        ∃ fe ∈ result.errors, fe.1 ≠ "_mutex" ∧ fe.1 ≠ "_general" ∧
          getElementById p fe.1 = some i)) := by
  obtain ⟨ce, hce, _, _⟩ := getElementById_some hc
  obtain ⟨q, hids, hclear, hout⟩ := display_invalid_outcome p result s c hvalid hs hc
  obtain ⟨hhtml, hcls⟩ := display_tail p q result.errors s c ce hids hce
  rw [hout]
  refine ⟨rfl, hhtml, ?_, ?_⟩
  · intro fe hfe h1 h2 i hi
    rw [hcls]
    exact Or.inr ⟨rfl, fe, hfe, h1, h2, hi⟩
  · intro i hi
    constructor
    · rw [hcls]
      rintro (h | ⟨h, _⟩)
      · exact (hclear i hi).2 h
      · exact absurd h (by decide)
    · rw [hcls]
      rintro (h | ⟨_, h⟩)
      · exact absurd h (hclear i hi).1
      · exact h

set_option maxRecDepth 4000 in
/-- Witness for C6: on the example form, the response
`{valid: false, errors: {b: ["Value must be at most 10"]}}` marks field `b` as
errored, takes away its `valid` marking, and the list holds exactly that one
message; a response with the keys `_mutex`, `b` and `_general` lists the four
messages in order and marks only `b`. -/
theorem displayValidationResults_errors_witness :
    ((displayValidationResults examplePage
      ⟨false, [("b", ["Value must be at most 10"])]⟩).page.hasClass 5 "error" ∧
    ¬ (displayValidationResults examplePage
      ⟨false, [("b", ["Value must be at most 10"])]⟩).page.hasClass 5 "valid" ∧
    ((displayValidationResults examplePage
      ⟨false, [("b", ["Value must be at most 10"])]⟩).page.get? 10).map Element.innerHTML =
      some ("<ul><li style=\"color: #991b1b;\"><strong>b:</strong> " ++
        "Value must be at most 10</li></ul>")) ∧
    (((displayValidationResults examplePage
      ⟨false, [("_mutex", ["a excludes c"]), ("b", ["too big", "not even"]),
        ("_general", ["server busy"])]⟩).page.get? 10).map Element.innerHTML =
      some ("<ul><li style=\"color: #991b1b;\">⚠ a excludes c</li>" ++
        "<li style=\"color: #991b1b;\"><strong>b:</strong> too big</li>" ++
        "<li style=\"color: #991b1b;\"><strong>b:</strong> not even</li>" ++
        "<li style=\"color: #991b1b;\">⚠ server busy</li></ul>") ∧
    ¬ (displayValidationResults examplePage
      ⟨false, [("_mutex", ["a excludes c"]), ("b", ["too big", "not even"]),
        ("_general", ["server busy"])]⟩).page.hasClass 2 "error") :=
  have h := displayValidationResults_errors examplePage
    ⟨false, [("b", ["Value must be at most 10"])]⟩ 9 10 rfl (by decide) (by decide)
  have h' := displayValidationResults_errors examplePage
    ⟨false, [("_mutex", ["a excludes c"]), ("b", ["too big", "not even"]),
      ("_general", ["server busy"])]⟩ 9 10 rfl (by decide) (by decide)
  ⟨⟨h.2.2.1 ("b", ["Value must be at most 10"]) (List.mem_singleton.mpr rfl)
      (by decide) (by decide) 5 (by decide),
    (h.2.2.2 5 (by decide)).1,
    h.2.1.trans (by decide)⟩,
   ⟨h'.2.1.trans (by decide),
    fun hc => by
      obtain ⟨fe, hfe, h1, h2, hi⟩ := (h'.2.2.2 2 (by decide)).2 hc
      simp only [List.mem_cons, List.mem_singleton, List.not_mem_nil, or_false] at hfe
      rcases hfe with rfl | rfl | rfl
      · exact h1 rfl
      · exact absurd hi (by decide)
      · exact h2 rfl⟩⟩

/-- Counterexample for C6: on a page without the summary panel
`displayValidationResults` throws at `summary.style`; nothing is rendered and
field `b`, named by the result, is not marked. -/
theorem displayValidationResults_without_panels :
    getElementById barePage "validation-summary" = none ∧
    getElementById barePage "b" = some 2 ∧
    (displayValidationResults barePage
      ⟨false, [("b", ["Value must be at most 10"])]⟩).thrown = some nullStyleMessage ∧
    ¬ (displayValidationResults barePage
      ⟨false, [("b", ["Value must be at most 10"])]⟩).page.hasClass 2 "error" := by
  decide

/-! ## The configuration object of `validateAll` -/

theorem Config.hasOwn_eq_isSome (cfg : Config) (k : String) :
    cfg.hasOwn k = (cfg.get? k).isSome := by
  unfold Config.hasOwn Config.get?
  induction cfg with
  | nil => rfl
  | cons a t ih =>
    by_cases h : a.1 = k
    · simp [List.find?, h]
    · simp only [List.any_cons, List.find?, beq_iff_eq, h, decide_False, Bool.false_or]
      have : (a.1 == k) = false := by simpa using h
      rw [this]
      exact ih

theorem Config.get?_update (k : String) (v : JSVal) (k' : String) :
    ∀ cfg : Config, Config.get? (cfg.map (fun kv => if kv.1 = k then (k, v) else kv)) k' =
      if k = k' then (Config.get? cfg k).map (fun _ => v) else Config.get? cfg k'
  | [] => by simp [Config.get?]
  | a :: t => by
    have ih := Config.get?_update k v k' t
    unfold Config.get? at ih ⊢
    by_cases hk : k = k'
    · subst hk
      simp only [if_true] at ih ⊢
      by_cases ha : a.1 = k
      · simp [List.find?, ha]
      · have h1 : (a.1 == k) = false := by simpa using ha
        simp only [List.map_cons, ha, if_false, List.find?, h1]
        exact ih
    · simp only [hk, if_false] at ih ⊢
      by_cases ha : a.1 = k
      · have h1 : (k == k') = false := by simpa using hk
        have h2 : (a.1 == k') = false := by rw [ha]; exact h1
        simp only [List.map_cons, ha, if_true, List.find?, h1, h2]
        exact ih
      · simp only [List.map_cons, ha, if_false, List.find?]
        cases (a.1 == k')
        · exact ih
        · rfl

theorem Config.get?_append (k : String) (v : JSVal) (k' : String) :
    ∀ cfg : Config, Config.get? (cfg ++ [(k, v)]) k' =
      match Config.get? cfg k' with
      | some x => some x
      | none => if k = k' then some v else none
  | [] => by
    by_cases h : k = k'
    · simp [Config.get?, List.find?, h]
    · have h1 : (k == k') = false := by simpa using h
      simp [Config.get?, List.find?, h, h1]
  | a :: t => by
    have ih := Config.get?_append k v k' t
    unfold Config.get? at ih ⊢
    simp only [List.cons_append, List.find?]
    cases (a.1 == k')
    · exact ih
    · rfl

/-- Reading a property after the assignment `config[k] = v`. -/
theorem Config.get?_set (cfg : Config) (k : String) (v : JSVal) (k' : String) :
    (cfg.set k v).get? k' =
      if k = k' ∧ k ≠ "__proto__" then some v else cfg.get? k' := by
  unfold Config.set
  by_cases hp : k = "__proto__"
  · simp [hp]
  · simp only [hp, if_false, ne_eq, not_false_eq_true, and_true]
    by_cases ho : cfg.hasOwn k = true
    · simp only [ho, if_true]
      rw [Config.get?_update]
      by_cases hk : k = k'
      · simp only [hk, if_true]
        rw [Config.hasOwn_eq_isSome, hk] at ho
        cases hg : Config.get? cfg k' with
        | none => simp [hg] at ho
        | some x => rfl
      · simp [hk]
    · simp only [ho, Bool.false_eq_true, if_false]
      rw [Config.get?_append]
      by_cases hk : k = k'
      · rw [Config.hasOwn_eq_isSome, hk] at ho
        cases hg : Config.get? cfg k' with
        | none => simp [hk]
        | some x => simp [hg] at ho
      · cases hg : Config.get? cfg k' <;> simp [hk]

theorem configEntryStep_eq (p : Page) (config : Config) (entry : String × String) :
    configEntryStep p config entry =
      if entry.1 = "udp_host" ∨ entry.1 = "udp_port" then config
      else config.set entry.1 (entryValue p entry.1 entry.2) := by
  unfold configEntryStep entryValue checkboxById
  split
  · rfl
  · cases hl : (getElementById p entry.1).bind p.get? with
    | none => simp [Option.filter]
    | some input =>
      by_cases hty : input.type = "checkbox"
      · simp [Option.filter, hty]
      · simp [Option.filter, hty]

theorem entryFold_get?_of_not_mem (p : Page) (k : String) :
    ∀ (entries : List (String × String)) (cfg : Config),
      (∀ kv ∈ entries, kv.1 ≠ k) →
      (entries.foldl (configEntryStep p) cfg).get? k = cfg.get? k
  | [], _, _ => rfl
  | a :: t, cfg, h => by
    rw [List.foldl_cons,
      entryFold_get?_of_not_mem p k t _ (fun kv hkv => h kv (List.mem_cons_of_mem _ hkv)),
      configEntryStep_eq]
    split
    · rfl
    · rw [Config.get?_set]
      simp [h a (List.mem_cons_self _ _)]

/-- After the first loop, the property of a name holds the value stored for
the last entry of that name. -/
theorem entryFold_last (p : Page) (pre post : List (String × String)) (k v : String)
    (hpost : ∀ kv ∈ post, kv.1 ≠ k)
    (h1 : k ≠ "udp_host") (h2 : k ≠ "udp_port") (h3 : k ≠ "__proto__") :
    ((pre ++ (k, v) :: post).foldl (configEntryStep p) []).get? k =
      some (entryValue p k v) := by
  rw [List.foldl_append, List.foldl_cons, entryFold_get?_of_not_mem p k post _ hpost,
    configEntryStep_eq]
  simp [h1, h2, Config.get?_set, h3]

/-- The second loop: it ends without an exception when no property named
`hasOwnProperty` exists or appears, keeps the properties present, and adds
`false` for the name of each checkbox outside the address fields. -/
theorem uncheckedFold (cbs : List Element) :
    ∀ (cfg : Config), cfg.hasOwn "hasOwnProperty" = false →
      (∀ cb ∈ cbs, cb.name ≠ "hasOwnProperty") →
      ∃ cfg', cbs.foldl uncheckedStep (.ok cfg) = .ok cfg' ∧
        ∀ k, cfg'.get? k =
          match cfg.get? k with
          | some x => some x
          | none =>
            if k ≠ "udp_host" ∧ k ≠ "udp_port" ∧ k ≠ "__proto__" ∧ ∃ cb ∈ cbs, cb.name = k then
              some (.bool false)
            else none := by
  induction cbs with
  | nil =>
    intro cfg _ _
    refine ⟨cfg, rfl, fun k => ?_⟩
    cases Config.get? cfg k <;> simp
  | cons cb t ih =>
    intro cfg hsafe hnames
    have hcb : cb.name ≠ "hasOwnProperty" := hnames cb (List.mem_cons_self _ _)
    have ht : ∀ x ∈ t, x.name ≠ "hasOwnProperty" :=
      fun x hx => hnames x (List.mem_cons_of_mem _ hx)
    rw [List.foldl_cons]
    by_cases haddr : cb.name ≠ "udp_host" ∧ cb.name ≠ "udp_port"
    · by_cases hown : cfg.hasOwn cb.name = true
      · -- the name is already a property: nothing changes
        have hstep : uncheckedStep (.ok cfg) cb = .ok cfg := by
          simp [uncheckedStep, haddr, hsafe, hown]
        obtain ⟨cfg', hok, hget⟩ := ih cfg hsafe ht
        refine ⟨cfg', by rw [hstep]; exact hok, fun k => ?_⟩
        rw [hget k]
        cases hg : Config.get? cfg k with
        | some x => rfl
        | none =>
          have hne : cb.name ≠ k := by
            intro h
            rw [Config.hasOwn_eq_isSome, h, hg] at hown
            simp at hown
          simp [hne]
      · -- the name is added with the value false
        have hstep : uncheckedStep (.ok cfg) cb = .ok (cfg.set cb.name (.bool false)) := by
          simp [uncheckedStep, haddr, hsafe, hown]
        have hsafe' : (cfg.set cb.name (.bool false)).hasOwn "hasOwnProperty" = false := by
          rw [Config.hasOwn_eq_isSome, Config.get?_set]
          rw [Config.hasOwn_eq_isSome] at hsafe
          simp [hcb, hsafe]
        obtain ⟨cfg', hok, hget⟩ := ih _ hsafe' ht
        refine ⟨cfg', by rw [hstep]; exact hok, fun k => ?_⟩
        rw [hget k, Config.get?_set]
        have hnone : Config.get? cfg cb.name = none := by
          rw [Config.hasOwn_eq_isSome] at hown
          cases hg : Config.get? cfg cb.name with
          | none => rfl
          | some x => simp [hg] at hown
        by_cases hk : cb.name = k
        · subst hk
          by_cases hp : cb.name = "__proto__"
          · simp [hp, hnone]
          · simp [hp, hnone, haddr.1, haddr.2]
        · cases hg : Config.get? cfg k with
          | some x => simp [hk]
          | none => simp [hk]
    · -- an address field: skipped
      have hstep : uncheckedStep (.ok cfg) cb = .ok cfg := by
        simp only [uncheckedStep, haddr, if_false]
      obtain ⟨cfg', hok, hget⟩ := ih cfg hsafe ht
      refine ⟨cfg', by rw [hstep]; exact hok, fun k => ?_⟩
      rw [hget k]
      cases hg : Config.get? cfg k with
      | some x => rfl
      | none =>
        have hne : cb.name = k → ¬ (k ≠ "udp_host" ∧ k ≠ "udp_port") := by
          intro h; rw [← h]; exact haddr
        by_cases hk : cb.name = k
        · have := hne hk
          simp only [List.mem_cons, exists_eq_or_imp, hk, true_or, and_true]
          have h1 : ¬ (k ≠ "udp_host" ∧ k ≠ "udp_port" ∧ k ≠ "__proto__") := by tauto
          have h2 : ¬ (k ≠ "udp_host" ∧ k ≠ "udp_port" ∧ k ≠ "__proto__" ∧
              ∃ cb ∈ t, cb.name = k) := by tauto
          simp [h1, h2]
        · simp [hk]

/-- The configuration object `validateAll` builds and posts, when no form
entry and no checkbox is named `hasOwnProperty`: the properties the first loop
has set, and `false` for the name of each checkbox outside the address fields
that the first loop has not set. -/
theorem buildConfig_get? (p : Page) (entries : List (String × String))
    (hform : formDataEntries p = some entries)
    (hentries : ∀ kv ∈ entries, kv.1 ≠ "hasOwnProperty")
    (hboxes : ∀ cb ∈ checkboxes p, cb.name ≠ "hasOwnProperty") :
    ∃ config, buildConfig p entries = .ok config ∧
      (∀ fetch, validateAll p fetch = renderExchange p (fetch config)) ∧
      ∀ k, config.get? k =
        match Config.get? (entries.foldl (configEntryStep p) []) k with
        | some x => some x
        | none =>
          if k ≠ "udp_host" ∧ k ≠ "udp_port" ∧ k ≠ "__proto__" ∧
              ∃ cb ∈ checkboxes p, cb.name = k then
            some (.bool false)
          else none := by
  have hsafe : Config.hasOwn (entries.foldl (configEntryStep p) []) "hasOwnProperty" = false := by
    rw [Config.hasOwn_eq_isSome, entryFold_get?_of_not_mem p _ entries [] hentries]
    rfl
  obtain ⟨config, hok, hget⟩ := uncheckedFold (checkboxes p) _ hsafe hboxes
  refine ⟨config, hok, ?_, hget⟩
  intro fetch
  unfold validateAll
  simp only [hform]
  have hok' : buildConfig p entries = .ok config := hok
  rw [hok']

/-- C3 (as amended): when no form field is named `hasOwnProperty`,
`validateAll` posts a configuration object in which every form entry name other
than `udp_host`, `udp_port` and `__proto__` holds the value of the last entry
of that name: the checked state of the element whose id is the entry name when
that element is a checkbox, otherwise the number `parseFloat` reads from the
entry value, or the entry value itself when that is NaN. -/
theorem validateAll_config_entries (p : Page) (entries : List (String × String))
    (hform : formDataEntries p = some entries)
    (hentries : ∀ kv ∈ entries, kv.1 ≠ "hasOwnProperty")
    (hboxes : ∀ cb ∈ checkboxes p, cb.name ≠ "hasOwnProperty") :
    ∃ config, buildConfig p entries = .ok config ∧
      (∀ fetch, validateAll p fetch = renderExchange p (fetch config)) ∧
      ∀ pre k v post, entries = pre ++ (k, v) :: post → (∀ kv ∈ post, kv.1 ≠ k) →
        k ≠ "udp_host" → k ≠ "udp_port" → k ≠ "__proto__" →
        config.get? k =
          some (match checkboxById p k with
            | some input => .bool input.checked
            | none => if (parseFloat v).isNaN then .str v else .num (parseFloat v)) := by
  obtain ⟨config, hok, hpost, hget⟩ := buildConfig_get? p entries hform hentries hboxes
  refine ⟨config, hok, hpost, ?_⟩
  intro pre k v post hsplit hlast h1 h2 h3
  rw [hget k, hsplit, entryFold_last p pre post k v hlast h1 h2 h3]
  rfl

/-- Witness for C3: the form `{a: true, b: 12, c: "x"}` posts a body where `a`
is the boolean true, `b` the number 12 and `c` the string `x`. -/
theorem validateAll_config_entries_witness :
    ∃ config, buildConfig examplePage [("a", "on"), ("b", "12"), ("c", "x")] = .ok config ∧
      (∀ fetch, validateAll examplePage fetch = renderExchange examplePage (fetch config)) ∧
      config.get? "a" = some (.bool true) ∧
      config.get? "b" = some (.num (JSNum.ofNat 12)) ∧
      config.get? "c" = some (.str "x") := by
  obtain ⟨config, hok, hpost, hmap⟩ :=
    validateAll_config_entries examplePage [("a", "on"), ("b", "12"), ("c", "x")]
      (by decide) (by decide) (by decide)
  refine ⟨config, hok, hpost, ?_, ?_, ?_⟩
  · exact (hmap [] "a" "on" [("b", "12"), ("c", "x")] rfl (by decide) (by decide) (by decide)
      (by decide)).trans (by decide)
  · exact (hmap [("a", "on")] "b" "12" [("c", "x")] rfl (by decide) (by decide) (by decide)
      (by decide)).trans (by decide)
  · exact (hmap [("a", "on"), ("b", "12")] "c" "x" [] rfl (by decide) (by decide) (by decide)
      (by decide)).trans (by decide)

/-- Counterexample for C3: a checked checkbox named `a` whose id is `chk_a`
is posted as the string `on`, not as the boolean true. -/
theorem validateAll_checkbox_posted_as_string :
    formDataEntries detachedCheckboxPage = some [("a", "on")] ∧
    (detachedCheckboxPage.get? 1).map (fun e => (e.tag, e.type, e.name, e.checked)) =
      some ("input", "checkbox", "a", true) ∧
    buildConfig detachedCheckboxPage [("a", "on")] = .ok [("a", .str "on")] :=
  ⟨by decide, by decide, rfl⟩

theorem exists_last_entry (k : String) :
    ∀ entries : List (String × String), (∃ kv ∈ entries, kv.1 = k) →
      ∃ pre v post, entries = pre ++ (k, v) :: post ∧ ∀ kv ∈ post, kv.1 ≠ k
  | [], h => by simp at h
  | a :: t, h => by
    by_cases ht : ∃ kv ∈ t, kv.1 = k
    · obtain ⟨pre, v, post, hsplit, hpost⟩ := exists_last_entry k t ht
      exact ⟨a :: pre, v, post, by rw [hsplit]; rfl, hpost⟩
    · have ha : a.1 = k := by
        obtain ⟨kv, hkv, hk⟩ := h
        rcases List.mem_cons.mp hkv with rfl | hmem
        · exact hk
        · exact absurd ⟨kv, hmem, hk⟩ ht
      refine ⟨[], a.2, t, ?_, ?_⟩
      · rw [← ha]
        rfl
      · intro kv hkv hk
        exact ht ⟨kv, hkv, hk⟩

/-- C4 (as amended): when no form field is named `hasOwnProperty`, the
configuration object built by `validateAll` has a key for every checkbox whose
name is not `udp_host`, `udp_port` or `__proto__`, and the key of an unchecked
checkbox maps to false when no form entry carries its name, or when the
element whose id is that name is an unchecked checkbox (the checkbox itself,
when its id is its name). -/
theorem validateAll_config_checkboxes (p : Page) (entries : List (String × String))
    (hform : formDataEntries p = some entries)
    (hentries : ∀ kv ∈ entries, kv.1 ≠ "hasOwnProperty")
    (hboxes : ∀ cb ∈ checkboxes p, cb.name ≠ "hasOwnProperty") :
    ∃ config, buildConfig p entries = .ok config ∧
      (∀ fetch, validateAll p fetch = renderExchange p (fetch config)) ∧
      ∀ cb ∈ checkboxes p, cb.name ≠ "udp_host" → cb.name ≠ "udp_port" →
        cb.name ≠ "__proto__" →
        config.hasOwn cb.name = true ∧
        (cb.checked = false →
          ((∀ kv ∈ entries, kv.1 ≠ cb.name) ∨
            ∃ input, checkboxById p cb.name = some input ∧ input.checked = false) →
          config.get? cb.name = some (.bool false)) := by
  obtain ⟨config, hok, hpost, hget⟩ := buildConfig_get? p entries hform hentries hboxes
  refine ⟨config, hok, hpost, ?_⟩
  intro cb hcb h1 h2 h3
  have hk := hget cb.name
  have hex : ∃ cb' ∈ checkboxes p, cb'.name = cb.name := ⟨cb, hcb, rfl⟩
  have hnone : (∀ kv ∈ entries, kv.1 ≠ cb.name) → config.get? cb.name = some (.bool false) := by
    intro hno
    rw [hk, entryFold_get?_of_not_mem p _ entries [] hno]
    simp [Config.get?, h1, h2, h3, hex]
  constructor
  · rw [Config.hasOwn_eq_isSome, hk]
    cases hg : Config.get? (entries.foldl (configEntryStep p) []) cb.name with
    | some x => rfl
    | none => simp [h1, h2, h3, hex]
  · rintro _ (hno | ⟨input, hin, hunchecked⟩)
    · exact hnone hno
    · by_cases hany : ∃ kv ∈ entries, kv.1 = cb.name
      · obtain ⟨pre, v, post, hsplit, hlast⟩ := exists_last_entry cb.name entries hany
        rw [hk, hsplit, entryFold_last p pre post cb.name v hlast h1 h2 h3]
        simp [entryValue, hin, hunchecked]
      · apply hnone
        intro kv hkv hkn
        exact hany ⟨kv, hkv, hkn⟩

/-- Witness for C4: on the form after a failed submission, where checkbox `a`
is unchecked and contributes no entry, the configuration object holds
`a: false`. -/
theorem validateAll_config_checkboxes_witness :
    formDataEntries stalePage = some [("b", "abc"), ("udp_port", "99999")] ∧
    (checkboxes stalePage).map (fun e => (e.name, e.checked)) = [("a", false)] ∧
    ∃ config,
      buildConfig stalePage [("b", "abc"), ("udp_port", "99999")] = .ok config ∧
      config.hasOwn "a" = true ∧ config.get? "a" = some (.bool false) := by
  refine ⟨by decide, by decide, ?_⟩
  obtain ⟨config, hok, _, hbox⟩ :=
    validateAll_config_checkboxes stalePage [("b", "abc"), ("udp_port", "99999")]
      (by decide) (by decide) (by decide)
  have h := hbox { Element.blank with
      tag := "input", id := "a", name := "a", type := "checkbox", value := "on", depth := 1 }
    (by decide) (by decide) (by decide) (by decide)
  exact ⟨config, hok, h.1, h.2 rfl (Or.inl (by decide))⟩

/-- Counterexample for C4: an unchecked checkbox named `udp_host` gets no key
in the configuration object. -/
theorem validateAll_skips_address_checkbox :
    formDataEntries addressCheckboxPage = some [] ∧
    (checkboxes addressCheckboxPage).map (fun e => (e.name, e.checked)) =
      [("udp_host", false)] ∧
    buildConfig addressCheckboxPage [] = .ok [] ∧
    Config.hasOwn [] "udp_host" = false :=
  ⟨by decide, by decide, rfl, rfl⟩

/-- C5 (as amended): when the form `configForm` exists, the configuration
object is built without an exception and the exchange with the validation
endpoint fails with message `m`, `validateAll` renders, through
`displayValidationResults`, the result with `valid = false` whose only key
`_general` holds the one message `Failed to validate: m`; on a page that has
the summary and content panels nothing is thrown and the content panel lists
that one message. -/
theorem validateAll_transport_failure (p : Page)
    (fetch : Config → FetchResult ValidationResult) (entries : List (String × String))
    (config : Config) (m : String) (s c : Nat)
    (hform : formDataEntries p = some entries)
    (hconfig : buildConfig p entries = .ok config)
    (hfail : fetch config = .failure m)
    (hs : getElementById p "validation-summary" = some s)
    (hc : getElementById p "validation-content" = some c) :
    validateAll p fetch =
      displayValidationResults p
        { valid := false, errors := [("_general", ["Failed to validate: " ++ m])] } ∧
    (validateAll p fetch).thrown = none ∧
    ((validateAll p fetch).page.get? c).map Element.innerHTML =
      some ("<ul>" ++ ("<li style=\"color: #991b1b;\">⚠ " ++ ("Failed to validate: " ++ m) ++ "</li>") ++ "</ul>") := by
  have heq : validateAll p fetch =
      displayValidationResults p
        { valid := false, errors := [("_general", ["Failed to validate: " ++ m])] } := by
    unfold validateAll
    simp only [hform, hconfig, renderExchange, hfail]
    rfl
  obtain ⟨ce, hce, _, _⟩ := getElementById_some hc
  obtain ⟨q, hids, _, hout⟩ := display_invalid_outcome p
    { valid := false, errors := [("_general", ["Failed to validate: " ++ m])] } s c rfl hs hc
  have hjoin : String.join
      (([("_general", ["Failed to validate: " ++ m])] : List (String × List String)).flatMap
        (fun fe => fe.2.map (errorItem fe.1))) =
      ("<li style=\"color: #991b1b;\">⚠ " ++ ("Failed to validate: " ++ m) ++ "</li>") := by
    apply String.ext
    simp [String.data_join, errorItem]
  have h2 := (display_tail p q [("_general", ["Failed to validate: " ++ m])] s c ce hids hce).1
  rw [hjoin] at h2
  refine ⟨heq, by rw [heq, hout], ?_⟩
  rw [heq, hout]
  exact h2

/-- Witness for C5: on the example form a network failure with the message
`Failed to fetch` ends in the content panel listing
`Failed to validate: Failed to fetch`, with nothing thrown. -/
theorem validateAll_transport_failure_witness :
    (validateAll examplePage (fun _ => .failure "Failed to fetch")).thrown = none ∧
    ((validateAll examplePage (fun _ => .failure "Failed to fetch")).page.get? 10).map
        Element.innerHTML =
      some ("<ul><li style=\"color: #991b1b;\">⚠ Failed to validate: Failed to fetch</li></ul>") :=
  have h := validateAll_transport_failure examplePage (fun _ => .failure "Failed to fetch")
    [("a", "on"), ("b", "12"), ("c", "x")]
    [("a", .bool true), ("b", .num (JSNum.ofNat 12)), ("c", .str "x")] "Failed to fetch" 9 10
    (by decide) rfl rfl (by decide) (by decide)
  ⟨h.2.1, h.2.2.trans (by decide)⟩

/-- Counterexample for C5: on a page without the validation panels a network
failure is not contained: the call of `displayValidationResults` in the
`catch` block throws, and `validateAll` ends with that exception. -/
theorem validateAll_transport_failure_without_panels :
    formDataEntries barePage = some [("b", "abc")] ∧
    buildConfig barePage [("b", "abc")] = .ok [("b", .str "abc")] ∧
    getElementById barePage "validation-summary" = none ∧
    (validateAll barePage (fun _ => .failure "Failed to fetch")).thrown =
      some nullStyleMessage :=
  ⟨by decide, rfl, by decide, by decide⟩

/-- The page `resetToDefaults` leaves carries a class on an element exactly
when the page its loop leaves does. -/
theorem resetToDefaults_hasClass (sanitize : Element → String → Except String String)
    (p : Page) (defaults : List (String × JSVal)) (k : Nat) (c : String) :
    (resetToDefaults sanitize p true (.response defaults)).page.hasClass k c ↔
      (resetLoop sanitize defaults p).page.hasClass k c := by
  have hbody : (resetBody sanitize p defaults).page.hasClass k c ↔
      (resetLoop sanitize defaults p).page.hasClass k c := by
    unfold resetBody
    split
    · exact Iff.rfl
    · split
      · exact Iff.rfl
      · rw [showFlash_hasClass]
        refine Page.hasClass_modify_keep _ _ _ _ _ ?_
        exact fun _ => Iff.rfl
  unfold resetToDefaults
  simp only [Bool.not_true, Bool.false_eq_true, if_false]
  split
  · exact hbody
  · rw [showFlash_hasClass]
    exact hbody

/-- On a page with the summary panel and a place for banners, with a value
setter that accepts the defaults, `resetToDefaults` is the loop, the hiding
of the summary and the success banner, and throws nothing. -/
theorem resetToDefaults_eq (sanitize : Element → String → Except String String)
    (p : Page) (defaults : List (String × JSVal)) (summary : Nat)
    (hloop : (resetLoop sanitize defaults p).thrown = none)
    (hsum : getElementById p "validation-summary" = some summary)
    (hflash : hasFlashContainer p = true ∨ (createFlashContainer p).thrown = none) :
    resetToDefaults sanitize p true (.response defaults) =
      showFlash ((resetLoop sanitize defaults p).page.modify summary
        (fun e => { e with display := "none" })) "success" "Form reset to default values" ∧
    (resetToDefaults sanitize p true (.response defaults)).thrown = none := by
  have hsum2 : getElementById (resetLoop sanitize defaults p).page "validation-summary" =
      some summary := by rw [resetLoop_getElementById]; exact hsum
  have hbody : resetBody sanitize p defaults =
      showFlash ((resetLoop sanitize defaults p).page.modify summary
        (fun e => { e with display := "none" })) "success" "Form reset to default values" := by
    unfold resetBody
    rw [hloop, hsum2]
  have hsk := resetLoop_skeleton sanitize defaults p
  have hthrown : (showFlash ((resetLoop sanitize defaults p).page.modify summary
        (fun e => { e with display := "none" })) "success" "Form reset to default values").thrown
      = none := by
    have hc := showFlash_thrown_congr
      (p := p)
      (q := (resetLoop sanitize defaults p).page.modify summary
        (fun e => { e with display := "none" })) "success" "Form reset to default values"
      (by
        refine Eq.trans (Page.map_modify _ _ _ _ ?_) hsk.1
        exact fun _ => rfl)
      hsk.2.1
    rw [hc.2.2]
    exact (showFlash_thrown_none_iff p _ _).2 hflash
  have hres : resetToDefaults sanitize p true (.response defaults) =
      resetBody sanitize p defaults := by
    unfold resetToDefaults
    simp only [Bool.not_true, Bool.false_eq_true, if_false]
    rw [hbody, hthrown]
  rw [hres, hbody]
  exact ⟨rfl, hthrown⟩

/-- C7 (as amended): on a page that has the summary panel and a place for
banners, for defaults with distinct keys that the value setters accept,
`resetToDefaults` throws nothing, appends the success banner, hides the
summary panel, and leaves each element named by a key as its default makes
it: a checkbox checked exactly when the default is truthy; a `select` with
the first option whose value is the default string selected and no other, so
that its value is the default only if such an option exists and is empty
otherwise; any other element holding what its value setter stores for the
default string. -/
theorem resetToDefaults_applies (sanitize : Element → String → Except String String)
    (p : Page) (defaults : List (String × JSVal)) (summary : Nat)
    (hsan : ∀ (e : Element) (cl : List String) (t s : String),
      sanitize { e with classList := cl, textContent := t } s = sanitize e s)
    (hnd : (defaults.map Prod.fst).Nodup)
    (hset : ∀ fv ∈ defaults, ∀ (i : Nat) (input : Element),
      getElementById p fv.1 = some i → p.get? i = some input →
      input.type ≠ "checkbox" → input.tag ≠ "select" →
      ∃ stored, sanitize input fv.2.toJSString = .ok stored)
    (hsum : getElementById p "validation-summary" = some summary)
    (hflash : hasFlashContainer p = true ∨ (createFlashContainer p).thrown = none) :
    (resetToDefaults sanitize p true (.response defaults)).thrown = none ∧
    (resetToDefaults sanitize p true (.response defaults)).page.flashes =
      p.flashes ++ [⟨"success", "Form reset to default values"⟩] ∧
    (∃ e, (resetToDefaults sanitize p true (.response defaults)).page.get? summary = some e ∧
      e.display = "none") ∧
    (∀ fv ∈ defaults, ∀ (i : Nat) (input : Element),
      getElementById p fv.1 = some i → p.get? i = some input →
      ∃ e, (resetToDefaults sanitize p true (.response defaults)).page.get? i = some e ∧
        (input.type = "checkbox" → e.checked = fv.2.truthy) ∧
        (input.type ≠ "checkbox" → input.tag = "select" →
          e.options = selectByValue input.options fv.2.toJSString ∧
          e.value = selectedValue (selectByValue input.options fv.2.toJSString)) ∧
        (input.type ≠ "checkbox" → input.tag ≠ "select" →
          sanitize input fv.2.toJSString = .ok e.value)) := by
  have hloop := resetLoop_thrown_none sanitize hsan defaults p hnd hset
  obtain ⟨heq, hthr⟩ := resetToDefaults_eq sanitize p defaults summary hloop hsum hflash
  have hthr2 := hthr
  rw [heq] at hthr2
  refine ⟨hthr, ?_, ?_, ?_⟩
  · rw [heq, showFlash_flashes, if_pos hthr2]
    show (resetLoop sanitize defaults p).page.flashes ++ _ = _
    rw [(resetLoop_skeleton sanitize defaults p).2.2]
  · have hsum2 : getElementById (resetLoop sanitize defaults p).page "validation-summary" =
        some summary := by rw [resetLoop_getElementById]; exact hsum
    obtain ⟨e, he, _⟩ := getElementById_some hsum2
    refine ⟨{ e with display := "none" }, ?_, rfl⟩
    rw [heq, showFlash_get?, Page.get?_modify, if_pos rfl, he]
    rfl
  · intro fv hfv i input hi hin
    obtain ⟨e, he, hd⟩ := resetLoop_fields sanitize hsan defaults p hloop hnd fv hfv i input hi hin
    rw [heq, showFlash_get?, Page.get?_modify]
    by_cases hsi : summary = i
    · refine ⟨{ e with display := "none" }, ?_, hd⟩
      rw [if_pos hsi, he]
      rfl
    · exact ⟨e, by rw [if_neg hsi]; exact he, hd⟩

/-- Witness for C7: on `resetPage` the defaults `{a: false, c: true, b: 5,
s: "x"}` leave checkbox `a` unchecked, checkbox `c` checked, field `b` at
`5`, the select at `x` and the summary panel hidden, with the success
banner shown. -/
theorem resetToDefaults_applies_witness :
    (resetToDefaults storeAsGiven resetPage true
      (.response [("a", .bool false), ("c", .bool true), ("b", .num (JSNum.ofNat 5)),
        ("s", .str "x")])).thrown = none ∧
    (∃ e, (resetToDefaults storeAsGiven resetPage true
      (.response [("a", .bool false), ("c", .bool true), ("b", .num (JSNum.ofNat 5)),
        ("s", .str "x")])).page.get? 1 = some e ∧ e.checked = false) ∧
    (∃ e, (resetToDefaults storeAsGiven resetPage true
      (.response [("a", .bool false), ("c", .bool true), ("b", .num (JSNum.ofNat 5)),
        ("s", .str "x")])).page.get? 2 = some e ∧ e.checked = true) ∧
    (∃ e, (resetToDefaults storeAsGiven resetPage true
      (.response [("a", .bool false), ("c", .bool true), ("b", .num (JSNum.ofNat 5)),
        ("s", .str "x")])).page.get? 3 = some e ∧ e.value = "5") ∧
    (∃ e, (resetToDefaults storeAsGiven resetPage true
      (.response [("a", .bool false), ("c", .bool true), ("b", .num (JSNum.ofNat 5)),
        ("s", .str "x")])).page.get? 5 = some e ∧
      e.options = [("x", true), ("y", false)] ∧ e.value = "x") ∧
    (∃ e, (resetToDefaults storeAsGiven resetPage true
      (.response [("a", .bool false), ("c", .bool true), ("b", .num (JSNum.ofNat 5)),
        ("s", .str "x")])).page.get? 6 = some e ∧ e.display = "none") := by
  have h := resetToDefaults_applies storeAsGiven resetPage
    [("a", .bool false), ("c", .bool true), ("b", .num (JSNum.ofNat 5)), ("s", .str "x")] 6
    (fun _ _ _ _ => rfl) (by decide) (fun _ _ _ _ _ _ _ _ => ⟨_, rfl⟩) (by decide) (by decide)
  obtain ⟨ea, hea, ha, _, _⟩ := h.2.2.2 ("a", .bool false) (by decide) 1 _ (by decide) rfl
  obtain ⟨ec, hec, hc, _, _⟩ := h.2.2.2 ("c", .bool true) (by decide) 2 _ (by decide) rfl
  obtain ⟨eb, heb, _, _, hb⟩ :=
    h.2.2.2 ("b", .num (JSNum.ofNat 5)) (by decide) 3 _ (by decide) rfl
  obtain ⟨es, hes, _, hs, _⟩ := h.2.2.2 ("s", .str "x") (by decide) 5 _ (by decide) rfl
  refine ⟨h.1, ⟨ea, hea, ha (by decide)⟩, ⟨ec, hec, hc (by decide)⟩, ⟨eb, heb, ?_⟩,
    ⟨es, hes, ?_⟩, h.2.2.1⟩
  · have hb2 : (Except.ok (JSVal.num (JSNum.ofNat 5)).toJSString : Except String String) =
        .ok eb.value := hb (by decide) (by decide)
    exact (Except.ok.inj hb2).symm.trans (by decide)
  · have hs2 := hs (by decide) (by decide)
    exact ⟨hs2.1.trans (by decide), hs2.2.trans (by decide)⟩

/-- Counterexample for C7: on `resetPage` the defaults `{s: "z"}` name the
`select`, which offers `x` and `y` only: nothing is thrown, the success banner
is shown, and the select ends with no option selected and the empty value,
not the default `z`. -/
theorem resetToDefaults_select_without_option :
    (resetPage.get? 5).map (fun e => (e.tag, e.id, e.type, e.options, e.value)) =
      some ("select", "s", "select-one", [("x", false), ("y", true)], "y") ∧
    (resetToDefaults storeAsGiven resetPage true (.response [("s", .str "z")])).thrown = none ∧
    (resetToDefaults storeAsGiven resetPage true (.response [("s", .str "z")])).page.flashes =
      [⟨"success", "Form reset to default values"⟩] ∧
    ((resetToDefaults storeAsGiven resetPage true (.response [("s", .str "z")])).page.get? 5).map
      (fun e => (e.options, e.value)) = some ([("x", false), ("y", false)], "") :=
  ⟨rfl, by decide, rfl, by decide⟩

/-- C10 (as amended): for defaults with distinct keys that the value setters
accept, after `resetToDefaults` the element named by each key of the defaults
carries neither `error` nor `valid` and the error element of that key is not
`visible`; an element that no key names, and that is the error element of no
key, carries exactly the classes it carried before; and no element gains a
class. -/
theorem resetToDefaults_clears_reset_fields
    (sanitize : Element → String → Except String String)
    (p : Page) (defaults : List (String × JSVal))
    (hsan : ∀ (e : Element) (cl : List String) (t s : String),
      sanitize { e with classList := cl, textContent := t } s = sanitize e s)
    (hnd : (defaults.map Prod.fst).Nodup)
    (hset : ∀ fv ∈ defaults, ∀ (i : Nat) (input : Element),
      getElementById p fv.1 = some i → p.get? i = some input →
      input.type ≠ "checkbox" → input.tag ≠ "select" →
      ∃ stored, sanitize input fv.2.toJSString = .ok stored) :
    (∀ fv ∈ defaults, ∀ i, getElementById p fv.1 = some i →
      ¬ (resetToDefaults sanitize p true (.response defaults)).page.hasClass i "error" ∧
      ¬ (resetToDefaults sanitize p true (.response defaults)).page.hasClass i "valid" ∧
      ∀ k, getElementById p ("error-" ++ fv.1) = some k →
        ¬ (resetToDefaults sanitize p true (.response defaults)).page.hasClass k "visible") ∧
    (∀ k c,
      (∀ fv ∈ defaults,
        getElementById p fv.1 ≠ some k ∧ getElementById p ("error-" ++ fv.1) ≠ some k) →
      ((resetToDefaults sanitize p true (.response defaults)).page.hasClass k c ↔
        p.hasClass k c)) ∧
    (∀ k c, (resetToDefaults sanitize p true (.response defaults)).page.hasClass k c →
      p.hasClass k c) := by
  have hloop := resetLoop_thrown_none sanitize hsan defaults p hnd hset
  refine ⟨?_, ?_, ?_⟩
  · intro fv hfv i hi
    refine ⟨?_, ?_, ?_⟩
    · rw [resetToDefaults_hasClass]
      exact (resetLoop_clears sanitize i "error" defaults p hloop fv hfv).1 hi (Or.inl rfl)
    · rw [resetToDefaults_hasClass]
      exact (resetLoop_clears sanitize i "valid" defaults p hloop fv hfv).1 hi (Or.inr rfl)
    · intro k hk
      rw [resetToDefaults_hasClass]
      exact (resetLoop_clears sanitize k "visible" defaults p hloop fv hfv).2 ⟨i, hi⟩ hk rfl
  · intro k c h
    rw [resetToDefaults_hasClass]
    exact resetLoop_hasClass_frame sanitize k c defaults p h
  · intro k c
    rw [resetToDefaults_hasClass]
    exact resetLoop_hasClass_mono sanitize k c defaults p

/-- Witness for C10: after a failed submission, the defaults `{a: false, b: 5}`
leave field `b` without marking and its error element hidden, while the
input `udp_port`, which they do not name, keeps its class `numeric-input`. -/
theorem resetToDefaults_clears_reset_fields_witness :
    ¬ (resetToDefaults storeAsGiven stalePage true
        (.response [("a", .bool false), ("b", .num (JSNum.ofNat 5))])).page.hasClass 2 "error" ∧
    ¬ (resetToDefaults storeAsGiven stalePage true
        (.response [("a", .bool false), ("b", .num (JSNum.ofNat 5))])).page.hasClass 2 "valid" ∧
    ¬ (resetToDefaults storeAsGiven stalePage true
        (.response [("a", .bool false), ("b", .num (JSNum.ofNat 5))])).page.hasClass 3 "visible" ∧
    (resetToDefaults storeAsGiven stalePage true
        (.response [("a", .bool false), ("b", .num (JSNum.ofNat 5))])).page.hasClass 4
      "numeric-input" :=
  have h := resetToDefaults_clears_reset_fields storeAsGiven stalePage
    [("a", .bool false), ("b", .num (JSNum.ofNat 5))]
    (fun _ _ _ _ => rfl) (by decide) (fun _ _ _ _ _ _ _ _ => ⟨_, rfl⟩)
  have hb := h.1 ("b", .num (JSNum.ofNat 5)) (by decide) 2 (by decide)
  ⟨hb.1, hb.2.1, hb.2.2 3 (by decide), (h.2.1 4 "numeric-input" (by decide)).2 (by decide)⟩

/-- Counterexample for C10: after a failed submission, the defaults
`{a: false, b: 5}` leave the input `udp_port`, which they do not name, with
its `error` marking and its error element visible. -/
theorem resetToDefaults_keeps_other_markings :
    (resetToDefaults storeAsGiven stalePage true
        (.response [("a", .bool false), ("b", .num (JSNum.ofNat 5))])).page.hasClass 4 "error" ∧
    (resetToDefaults storeAsGiven stalePage true
        (.response [("a", .bool false), ("b", .num (JSNum.ofNat 5))])).page.hasClass 5 "visible" ∧
    (resetToDefaults storeAsGiven stalePage true
        (.response [("a", .bool false), ("b", .num (JSNum.ofNat 5))])).thrown = none ∧
    (stalePage.get? 4).map (fun e => (e.tag, e.id)) = some ("input", "udp_port") ∧
    (stalePage.get? 5).map Element.id = some "error-udp_port" := by
  decide

end ShareMap
